import Mathlib

/-!
# Analytics ingestion service: validation, enrichment and batch processing

A shallow embedding of `src/analytics_service.js` (the Express service) and the
theorems that settle the specification's claims about it.

JavaScript values are embedded as follows.

* A field value of an event is a `JVal`.  An absent property (`undefined`) is
  `none : Option JVal`.
* An event is an `Obj`: an ordered list of key/value pairs, read with
  `Obj.get` (first binding of the key).
* Impure calls (`Math.random`, `new Date()`), the two third-party lookups
  (`geoip.lookup`, `useragent.parse`) and the sink (`clickhouse.insert`) are
  oracles passed in explicitly.
-/

set_option autoImplicit false

namespace Analytics

/-! ## Values -/

/-- A JSON value held by a field of an event.

* `num n` is a number whose value is the integer `n` (string form: plain decimal);
* `frac text` is any other number (a non-zero non-integer, or a magnitude printed
  in exponent form), carried by its string form `Number::toString`;
* `ref json text` is an array or an object whose conversion to a string
  succeeds, carried by its JSON text and its string form `ToString`;
* `inconvertible json` is an array or an object whose conversion to a string
  throws a `TypeError`, carried by its JSON text: an object with an own
  `toString` property that is not callable and no `valueOf` that gives a
  primitive, such as `{"toString": 1}`, or an array that holds such an object.

The service itself only ever tests such a value for truthiness, compares it with
`===` against strings, converts it to a string, or copies it, so the string form
is all it observes of a `frac` or a `ref`.  The JSON text tells apart two arrays
or objects with the same string form, which the user-agent parser, a
third-party function, can treat differently.  A number that `parseInt` produces
is written the same way: `num n` when it is finite, `frac "Infinity"` or
`frac "-Infinity"` otherwise. -/
inductive JVal where
  | null
  | bool (b : Bool)
  | num (n : Int)
  | frac (text : String)
  | str (s : String)
  | ref (json : String) (text : String)
  | inconvertible (json : String)
  deriving DecidableEq, Repr

/-- Result of a call that either returns normally or throws an error with a
message. -/
inductive Outcome (α : Type) where
  | returned (value : α)
  | threw (message : String)
  deriving DecidableEq, Repr

/-- The message of the `TypeError` that the engine (V8) throws when an object
cannot be converted to a primitive value. -/
def conversionMessage : String := "Cannot convert object to primitive value"

/-- JavaScript `ToBoolean` on a possibly absent value: `undefined`, `null`,
`false`, `0` and `''` are falsy, everything else is truthy. -/
def truthy : Option JVal → Bool
  | none => false
  | some .null => false
  | some (.bool b) => b
  | some (.num n) => n != 0
  | some (.frac _) => true
  | some (.str s) => s != ""
  | some (.ref _ _) => true
  | some (.inconvertible _) => true

/-- JavaScript `ToString` on a possibly absent value (template literals,
`parseInt`'s argument conversion); it throws on an `inconvertible` object. -/
def toStr : Option JVal → Outcome String
  | none => .returned "undefined"
  | some .null => .returned "null"
  | some (.bool true) => .returned "true"
  | some (.bool false) => .returned "false"
  | some (.num n) => .returned (toString n)
  | some (.frac text) => .returned text
  | some (.str s) => .returned s
  | some (.ref _ text) => .returned text
  | some (.inconvertible _) => .threw conversionMessage

/-- Whether the conversion of a value to a string throws. -/
def cannotConvert (v : Option JVal) : Bool :=
  match v with
  | some (.inconvertible _) => true
  | _ => false

/-- JavaScript `a || d` where `d` is a defined value. -/
def orElse (a : Option JVal) (d : JVal) : JVal :=
  match a with
  | some v => if truthy (some v) then v else d
  | none => d

/-- JavaScript `a || b` where both sides may be `undefined`. -/
def orOpt (a b : Option JVal) : Option JVal :=
  if truthy a then a else b

/-- An object: key/value pairs in insertion order. -/
abbrev Obj := List (String × JVal)

/-- Property read `o[k]`: the value bound to `k`, `none` for `undefined`. -/
def Obj.get (o : Obj) (k : String) : Option JVal :=
  match o with
  | [] => none
  | (k', v) :: rest => if k' = k then some v else Obj.get rest k

/-- Property write on an object under construction: an existing key keeps its
position and takes the new value, a new key is appended. -/
def Obj.set (o : Obj) (k : String) (v : JVal) : Obj :=
  match o with
  | [] => [(k, v)]
  | (k', v') :: rest => if k' = k then (k', v) :: rest else (k', v') :: Obj.set rest k v

/-- Object literal `{...o, k₁: v₁, …, kₙ: vₙ}`: the spread copy of `o` followed
by the listed properties, written in order. -/
def Obj.assign (o : Obj) (kvs : List (String × JVal)) : Obj :=
  kvs.foldl (fun acc kv => Obj.set acc kv.1 kv.2) o

/-! ## validateEvent (lines 128–143) -/

/-- The array `required` of `validateEvent`. -/
def required : List String := ["session_id", "event_type", "page_url"]

/-- The array `validTypes` of `validateEvent`. -/
def validTypes : List String :=
  ["page_view", "click", "scroll", "session_start", "session_end", "page_exit",
   "custom", "session_update"]

/-- The test `validTypes.includes(v)`: `includes` compares with SameValueZero,
so only a string value can be found in an array of strings. -/
def includesType (v : Option JVal) : Bool :=
  match v with
  | some (.str s) => validTypes.contains s
  | _ => false

/-- The array `missing` of `validateEvent`: `required.filter(field => !event[field])`. -/
def missingFields (event : Obj) : List String :=
  required.filter (fun field => !truthy (event.get field))

/-- The function `validateEvent(event)`.  The template literal of the second
`throw` converts `event.event_type` to a string first; when that conversion
throws, its `TypeError` is what leaves the function. -/
def validateEvent (event : Obj) : Outcome Bool :=
  let missing := missingFields event
  if missing.length > 0 then
    .threw ("Missing required fields: " ++ ", ".intercalate missing)
  else if !includesType (event.get "event_type") then
    match toStr (event.get "event_type") with
    | .returned text => .threw ("Invalid event type: " ++ text)
    | .threw message => .threw message
  else
    .returned true


/-! ## parseInt and numeric defaulting (lines 105–115) -/

/-- The code points that `parseInt` skips at the start of its input
(ECMAScript `WhiteSpace` and `LineTerminator`). -/
def isJsWhiteSpace (c : Char) : Bool :=
  c.toNat ∈ [0x09, 0x0A, 0x0B, 0x0C, 0x0D, 0x20, 0xA0, 0x1680, 0x2028, 0x2029, 0x202F,
    0x205F, 0x3000, 0xFEFF] || (0x2000 ≤ c.toNat && c.toNat ≤ 0x200A)

/-- Value of a character as a digit, up to radix 16; `none` when it is no digit. -/
def digitValue (c : Char) : Option Nat :=
  if '0' ≤ c ∧ c ≤ '9' then some (c.toNat - '0'.toNat)
  else if 'a' ≤ c ∧ c ≤ 'f' then some (c.toNat - 'a'.toNat + 10)
  else if 'A' ≤ c ∧ c ≤ 'F' then some (c.toNat - 'A'.toNat + 10)
  else none

/-- Whether `c` is a digit of the given radix. -/
def isRadixDigit (radix : Nat) (c : Char) : Bool :=
  match digitValue c with
  | some d => d < radix
  | none => false

/-- The mathematical value of a digit string in the given radix. -/
def digitsValue (radix : Nat) (digits : List Char) : Nat :=
  digits.foldl (fun acc c => acc * radix + (digitValue c).getD 0) 0

/-- Sign handling of `parseInt`: a leading `-` or `+` is removed. -/
def stripSign : List Char → Bool × List Char
  | '-' :: rest => (true, rest)
  | '+' :: rest => (false, rest)
  | cs => (false, cs)

/-- Radix detection of `parseInt` called without a radix: a leading `0x` or `0X`
is removed and selects radix 16, otherwise the radix is 10. -/
def stripRadix : List Char → Nat × List Char
  | '0' :: 'x' :: rest => (16, rest)
  | '0' :: 'X' :: rest => (16, rest)
  | cs => (10, cs)

/-- A JavaScript Number that `parseInt` can return: a finite double whose value
is the integer `n`, `NaN`, or an infinity. -/
inductive JNum where
  | int (n : Int)
  | nan
  | infinity (negative : Bool)
  deriving DecidableEq, Repr

/-- Number of binary digits of `n`, computed with `fuel` halvings at most. -/
def bitLengthAux : Nat → Nat → Nat
  | 0, _ => 0
  | fuel + 1, n => if n = 0 then 0 else bitLengthAux fuel (n / 2) + 1

/-- Number of binary digits of `n`. -/
def bitLength (n : Nat) : Nat := bitLengthAux n n

/-- The Number value of a natural number `n` (ECMAScript's 𝔽): `n` itself below
2^53, otherwise `n` rounded to 53 significant bits, ties to even; `none` when
the rounded value does not fit a double (2^1024 or more), which is `Infinity`. -/
def toDouble (n : Nat) : Option Nat :=
  if n < 2 ^ 53 then some n
  else
    let shift := bitLength n - 53
    let kept := n / 2 ^ shift
    let dropped := n % 2 ^ shift
    let half := 2 ^ (shift - 1)
    let up := decide (dropped > half) || (decide (dropped = half) && decide (kept % 2 = 1))
    let rounded := (if up then kept + 1 else kept) * 2 ^ shift
    if rounded < 2 ^ 1024 then some rounded else none

/-- The steps of `parseInt` after the argument has been converted to a string
(ECMAScript 19.2.5, radix undefined): skip white space, read the sign, detect
the radix, read the digits, and return the Number value of what they denote.
(For a decimal numeral of more than 20 significant digits an engine may
replace the later digits by zeros; V8 does not.) -/
def parseIntText (text : String) : JNum :=
  let trimmed := text.toList.dropWhile isJsWhiteSpace
  let (negative, unsigned) := stripSign trimmed
  let (radix, body) := stripRadix unsigned
  let digits := body.takeWhile (isRadixDigit radix)
  if digits.isEmpty then .nan
  else
    match toDouble (digitsValue radix digits) with
    | some value => .int (if negative then -(value : Int) else value)
    | none => .infinity negative

/-- The built-in `parseInt(v)`: it converts `v` to a string, which can throw,
and parses the string. -/
def parseInt (v : Option JVal) : Outcome JNum :=
  match toStr v with
  | .returned text => .returned (parseIntText text)
  | .threw message => .threw message

/-- JavaScript `n || d` for a number `n` that `parseInt` returned: `NaN` and `0`
(also `-0`) are falsy. -/
def numOr (n : JNum) (d : Int) : JVal :=
  match n with
  | .int i => if i = 0 then .num d else .num i
  | .nan => .num d
  | .infinity false => .frac "Infinity"
  | .infinity true => .frac "-Infinity"

/-- The value of `parseInt(v) || d` when the conversion of `v` completes.  When
it throws, the call of `enrichEvent` throws and builds no object (see
`enrichError`); the entry is then `null`. -/
def parsedOr (v : Option JVal) (d : Int) : JVal :=
  match parseInt v with
  | .returned n => numOr n d
  | .threw _ => .null

/-! ## getClientIP (lines 61–68) -/

/-- A property of the parsed request body: an array (of events) or any other
value.  An array item is `some o` for a JSON object `o` and `none` for `null`;
an item that is a primitive or an array has none of the properties the service
reads and is embedded as the empty object. -/
inductive BodyVal where
  | array (items : List (Option Obj))
  | other (v : JVal)
  deriving DecidableEq, Repr

/-- The parts of the Express request the service reads.  A header that is not
sent is `none`; so is an address the runtime does not know, and a body that was
not parsed. -/
structure Request where
  headers : List (String × String)
  connectionRemoteAddress : Option String
  socketRemoteAddress : Option String
  ip : Option String
  body : Option (List (String × BodyVal))
  deriving DecidableEq, Repr

/-- The read `req.headers[name]`. -/
def Request.header (req : Request) (name : String) : Option String :=
  match req.headers.find? (fun kv => kv.1 == name) with
  | some kv => some kv.2
  | none => none

/-- JavaScript `a || b` on strings that may be `undefined`. -/
def orStr (a b : Option String) : Option String :=
  match a with
  | some s => if s ≠ "" then some s else b
  | none => b

/-- Splitting a character list at every occurrence of `sep`. -/
def splitChars (sep : Char) : List Char → List (List Char)
  | [] => [[]]
  | c :: cs =>
    if c = sep then [] :: splitChars sep cs
    else
      match splitChars sep cs with
      | [] => [[c]]
      | w :: ws => (c :: w) :: ws

/-- The method `s.split(sep)` for a one-character separator. -/
def jsSplit (s : String) (sep : Char) : List String :=
  (splitChars sep s.toList).map String.mk

/-- The function `getClientIP(req)`. -/
def getClientIP (req : Request) : Option String :=
  orStr (orStr (orStr (orStr
    ((req.header "x-forwarded-for").bind (fun h => (jsSplit h ',').head?))
    (req.header "x-real-ip"))
    req.connectionRemoteAddress)
    req.socketRemoteAddress)
    req.ip

/-! ## generateUUID (lines 70–77) -/

/-- The pattern string of `generateUUID`. -/
def uuidTemplate : String := "xxxxxxxx-xxxx-4xxx-yxxx-xxxxxxxxxxxx"

/-- The replacement callback of `generateUUID`, for the matched character `c`
and the value `r` of `Math.random() * 16 | 0`. -/
def uuidDigit (c : Char) (r : Nat) : List Char :=
  let v := if c = 'x' then r else ((r &&& 0x3) ||| 0x8)
  Nat.toDigits 16 v

/-- The call `.replace(/[xy]/g, callback)`: every `x` and `y`, left to right, is
replaced by the callback's result; `k` counts the callback's invocations so far,
and `random k` is the value of `Math.random() * 16 | 0` in invocation `k`
(an integer from 0 to 15, since `Math.random()` lies in `[0, 1)`). -/
def replaceXY (random : Nat → Fin 16) : List Char → Nat → List Char
  | [], _ => []
  | c :: cs, k =>
    if c = 'x' ∨ c = 'y' then uuidDigit c (random k).val ++ replaceXY random cs (k + 1)
    else c :: replaceXY random cs k

/-- The function `generateUUID()`. -/
def generateUUID (random : Nat → Fin 16) : String :=
  String.mk (replaceXY random uuidTemplate.toList 0)

/-! ## enrichEvent (lines 80–125) -/

/-- Result of `geoip.lookup` when it finds the address. -/
structure Geo where
  country : Option String
  city : Option String
  deriving DecidableEq, Repr

/-- The part `agent.os` of a parsed user agent: `family` and `toVersion()`. -/
structure AgentOS where
  family : Option String
  version : String
  deriving DecidableEq, Repr

/-- Result of `useragent.parse`: `family`, `toVersion()` and `os`. -/
structure Agent where
  family : Option String
  version : String
  os : AgentOS
  deriving DecidableEq, Repr

/-- The environment of the service: the two third-party lookups as functions of
their argument (`useragent.parse`, with the accessors read from its result, can
throw, for instance on a user agent that is not a string; `geoip.lookup`
returns for every string and for `undefined`), the sink call
`clickhouse.insert` as a function of its `values` (it resolves or rejects with a
message), whether `NODE_ENV` is `development`, the engine's message for a
property read on `null`, and its message for destructuring `undefined`. -/
structure Host where
  geoLookup : Option String → Option Geo
  uaParse : Option JVal → Outcome Agent
  insert : List Obj → Outcome Unit
  development : Bool
  nullReadMessage : String
  destructureMessage : String

/-- What the impure calls return during one call of `enrichEvent`:
`random k` is the k-th value of `Math.random() * 16 | 0` and `clock k` the k-th
value of `new Date().toISOString()`, both counted from 0 within the call. -/
structure Effects where
  random : Nat → Fin 16
  clock : Nat → String

/-- JavaScript `s || d` for a string `s` that may be `undefined`. -/
def strOr (s : Option String) (d : String) : JVal :=
  match s with
  | some t => if t ≠ "" then .str t else .str d
  | none => .str d

/-- The argument of `useragent.parse`: `event.user_agent || req.headers['user-agent']`. -/
def effectiveUserAgent (event : Obj) (req : Request) : Option JVal :=
  orOpt (event.get "user_agent") ((req.header "user-agent").map JVal.str)

/-- The constant `agent` of `enrichEvent` when `useragent.parse` completes.  When
it throws, the call of `enrichEvent` throws and builds no object (see
`enrichError`); the record then has no family and empty versions. -/
def parsedAgent (host : Host) (event : Obj) (req : Request) : Agent :=
  match host.uaParse (effectiveUserAgent event req) with
  | .returned agent => agent
  | .threw _ => ⟨none, "", ⟨none, ""⟩⟩

/-- The eleven numeric fields of the enriched event in source order, each with
the default written after `||`. -/
def numericFields : List (String × Int) :=
  [("page_load_time", 0), ("scroll_depth", 0), ("max_scroll_depth", 0),
   ("session_duration", 0), ("page_count", 1), ("click_x", 0), ("click_y", 0),
   ("screen_width", 0), ("screen_height", 0), ("viewport_width", 0), ("viewport_height", 0)]

/-- The properties that `enrichEvent` writes after the spread of `event`, in
source order. -/
def enrichedFields (host : Host) (fx : Effects) (event : Obj) (req : Request) :
    List (String × JVal) :=
  let clientIP := getClientIP req
  let geo := host.geoLookup clientIP
  let agent := parsedAgent host event req
  let clockReads := if truthy (event.get "timestamp") then 0 else 1
  [ ("event_id", orElse (event.get "event_id") (.str (generateUUID fx.random))),
    ("timestamp", orElse (event.get "timestamp") (.str (fx.clock 0))),
    ("country", strOr (geo.bind (fun g => g.country)) "Unknown"),
    ("city", strOr (geo.bind (fun g => g.city)) "Unknown"),
    ("browser", orElse (orOpt (agent.family.map JVal.str) (event.get "browser")) (.str "Unknown")),
    ("browser_version", strOr (some agent.version) ""),
    ("os", orElse (orOpt (agent.os.family.map JVal.str) (event.get "os")) (.str "Unknown")),
    ("os_version", strOr (some agent.os.version) ""),
    ("server_timestamp", .str (fx.clock clockReads)),
    ("page_load_time", parsedOr (event.get "page_load_time") 0),
    ("scroll_depth", parsedOr (event.get "scroll_depth") 0),
    ("max_scroll_depth", parsedOr (event.get "max_scroll_depth") 0),
    ("session_duration", parsedOr (event.get "session_duration") 0),
    ("page_count", parsedOr (event.get "page_count") 1),
    ("click_x", parsedOr (event.get "click_x") 0),
    ("click_y", parsedOr (event.get "click_y") 0),
    ("screen_width", parsedOr (event.get "screen_width") 0),
    ("screen_height", parsedOr (event.get "screen_height") 0),
    ("viewport_width", parsedOr (event.get "viewport_width") 0),
    ("viewport_height", parsedOr (event.get "viewport_height") 0),
    ("element_id", orElse (event.get "element_id") (.str "")),
    ("element_class", orElse (event.get "element_class") (.str "")),
    ("element_tag", orElse (event.get "element_tag") (.str "")),
    ("referrer", orElse (event.get "referrer") (.str "")),
    ("page_title", orElse (event.get "page_title") (.str "")),
    ("user_agent", orElse (effectiveUserAgent event req) (.str "")) ]

/-- The object that `enrichEvent(event, req)` returns when the call completes
(`enrichEventCall` tells when it does). -/
def enrichEvent (host : Host) (fx : Effects) (event : Obj) (req : Request) : Obj :=
  event.assign (enrichedFields host fx event req)

/-- The message of the first error thrown by one of the calls `parseInt(event.f)`
for the listed fields `f`, taken in order; `none` when every conversion completes. -/
def firstConversionError (event : Obj) : List String → Option String
  | [] => none
  | field :: rest =>
    match parseInt (event.get field) with
    | .threw message => some message
    | .returned _ => firstConversionError event rest

/-- The message of the error that a call of `enrichEvent(event, req)` throws,
`none` when the call completes.  In evaluation order the calls that can throw
are `useragent.parse` with the accessors of its result (lines 83, 96–99) and the
eleven calls of `parseInt` (lines 105–115). -/
def enrichError (host : Host) (event : Obj) (req : Request) : Option String :=
  match host.uaParse (effectiveUserAgent event req) with
  | .threw message => some message
  | .returned _ => firstConversionError event (numericFields.map Prod.fst)

/-- The call `enrichEvent(event, req)`: it throws the error `enrichError` names,
or returns the object `enrichEvent` builds. -/
def enrichEventCall (host : Host) (fx : Effects) (event : Obj) (req : Request) :
    Outcome Obj :=
  match enrichError host event req with
  | some message => .threw message
  | none => .returned (enrichEvent host fx event req)

/-! ## The handler of POST /analytics/events (lines 146–206) -/

/-- One entry of the handler's `errors` array: an index and `error.message`. -/
structure Rejection where
  index : Nat
  error : String
  deriving DecidableEq, Repr

/-- The call `validateEvent(events[i])` on an array item: an object is
validated; on `null` the first read `event[field]` throws a `TypeError`. -/
def validateItem (host : Host) (item : Option Obj) : Outcome Bool :=
  match item with
  | some event => validateEvent event
  | none => .threw host.nullReadMessage

/-- The two calls inside the `try` of the loop body (lines 168–170):
`validateEvent(event)`, then `enrichEvent(event, req)`.  The result is the
enriched event, or the error that the first throwing call threw. -/
def processItem (host : Host) (fx : Effects) (req : Request) (item : Option Obj) :
    Outcome Obj :=
  match validateItem host item with
  | .threw message => .threw message
  | .returned _ => enrichEventCall host fx (item.getD []) req

/-- The loop `for (let i = 0; i < events.length; i++)` of the handler, from
index `i` on: `items` are `events[i], events[i+1], …`, and `enrichedEvents`
and `errors` are the two arrays built so far.  `fx i` gives the impure values
of iteration `i`.  The `catch` records the message of whatever the `try` threw. -/
def batchLoop (host : Host) (fx : Nat → Effects) (req : Request) :
    List (Option Obj) → Nat → List Obj → List Rejection → List Obj × List Rejection
  | [], _, enrichedEvents, errors => (enrichedEvents, errors)
  | item :: rest, i, enrichedEvents, errors =>
    match processItem host (fx i) req item with
    | .returned enrichedEvent =>
      batchLoop host fx req rest (i + 1) (enrichedEvents ++ [enrichedEvent]) errors
    | .threw message =>
      batchLoop host fx req rest (i + 1) enrichedEvents (errors ++ [⟨i, message⟩])

/-- The JSON body of a response; `none` is a key that is not sent. -/
structure ReplyBody where
  error : Option String
  validationErrors : Option (List Rejection)
  success : Option Bool
  processed : Option Nat
  errors : Option (List Rejection)
  details : Option String
  requestId : Option String
  deriving DecidableEq, Repr

/-- A body with no key. -/
def ReplyBody.empty : ReplyBody :=
  ⟨none, none, none, none, none, none, none⟩

/-- What one request did: the status and body sent, and the `values` of every
call of `clickhouse.insert`, in call order. -/
structure Handled where
  status : Nat
  body : ReplyBody
  inserts : List (List Obj)
  deriving DecidableEq, Repr

/-- The `catch` block of the handler: status 500, with `error.message` as
`details` in development mode only. -/
def failedToProcess (host : Host) (message : String) (inserts : List (List Obj)) : Handled :=
  ⟨500, { ReplyBody.empty with
      error := some "Failed to process events",
      details := if host.development then some message else none }, inserts⟩

/-- The call `clickhouse.insert` with the given `values`: its outcome, and the
record of the call, which is the `values` it was given. -/
def callInsert (host : Host) (values : List Obj) : Outcome Unit × List (List Obj) :=
  (host.insert values, [values])

/-- The handler `app.post('/analytics/events', …)`. -/
def postEvents (host : Host) (fx : Nat → Effects) (req : Request) : Handled :=
  match req.body with
  | none => failedToProcess host host.destructureMessage []
  | some body =>
    match body.lookup "events" with
    | some (.array events) =>
      if events.length = 0 then
        ⟨400, { ReplyBody.empty with
          error := some "Events array is required and must not be empty" }, []⟩
      else if events.length > 1000 then
        ⟨400, { ReplyBody.empty with
          error := some "Too many events in single request (max 1000)" }, []⟩
      else
        let (enrichedEvents, errors) := batchLoop host fx req events 0 [] []
        if enrichedEvents.length = 0 then
          ⟨400, { ReplyBody.empty with
            error := some "No valid events to process",
            validationErrors := some errors }, []⟩
        else
          match callInsert host enrichedEvents with
          | (.threw message, calls) => failedToProcess host message calls
          | (.returned _, calls) =>
            ⟨200, { ReplyBody.empty with
              success := some true,
              processed := some enrichedEvents.length,
              errors := if errors.length > 0 then some errors else none }, calls⟩
    | _ =>
      ⟨400, { ReplyBody.empty with
        error := some "Events array is required and must not be empty" }, []⟩

/-! ## The error-handling middleware (lines 447–454) -/

/-- The middleware `app.use((error, req, res, next) => …)`: status 500 with
`requestId: req.headers['x-request-id'] || generateUUID()`.  `random` gives the
values of `Math.random() * 16 | 0` during the call. -/
def errorMiddleware (random : Nat → Fin 16) (req : Request) : Handled :=
  ⟨500, { ReplyBody.empty with
      error := some "Internal server error",
      requestId := orStr (req.header "x-request-id") (some (generateUUID random)) }, []⟩

/-! ## The browser SDK (src/frontend-integration/analytics-sdk.js) -/

/-- The fields of an `AnalyticsSDK` instance. -/
structure AnalyticsSDK where
  apiUrl : String
  sessionId : String
  userId : Option String
  isInitialized : Bool
  deriving DecidableEq, Repr

/-- The method `sendEvent(eventType, events)` (lines 139–166): the parsed form of
the JSON body it posts to `apiUrl`, `none` when the SDK is not initialised and
nothing is sent.  The body is `payload`, an empty object that received the one
property `payload[eventType] = events`. -/
def AnalyticsSDK.sendEvent (sdk : AnalyticsSDK) (eventType : String) (events : List Obj) :
    Option (List (String × BodyVal)) :=
  if !sdk.isInitialized then none
  else some [(eventType, .array (events.map some))]

/-- The method `trackPageView`: it sends the event object it built from the page
(here `event`) under the key `page_views`. -/
def AnalyticsSDK.trackPageView (sdk : AnalyticsSDK) (event : Obj) :
    Option (List (String × BodyVal)) :=
  sdk.sendEvent "page_views" [event]

/-- The method `trackClick`: it sends the event object it built (here `event`)
under the key `clicks`. -/
def AnalyticsSDK.trackClick (sdk : AnalyticsSDK) (event : Obj) :
    Option (List (String × BodyVal)) :=
  sdk.sendEvent "clicks" [event]

/-- The method `trackScroll`: it sends the event object it built (here `event`)
under the key `scrolls`. -/
def AnalyticsSDK.trackScroll (sdk : AnalyticsSDK) (event : Obj) :
    Option (List (String × BodyVal)) :=
  sdk.sendEvent "scrolls" [event]

/-- The method `trackSession`: it sends the event object it built (here `event`)
under the key `sessions`. -/
def AnalyticsSDK.trackSession (sdk : AnalyticsSDK) (event : Obj) :
    Option (List (String × BodyVal)) :=
  sdk.sendEvent "sessions" [event]

/-- The keys the four `track…` methods pass to `sendEvent`. -/
def sdkPayloadKeys : List String := ["page_views", "clicks", "scrolls", "sessions"]

/-- The response for a body that fails the first request-shape check. -/
def eventsRequired : Handled :=
  ⟨400, { ReplyBody.empty with
    error := some "Events array is required and must not be empty" }, []⟩

/-! ## The claims of the specification, as stated -/

/-- The words "absent or empty" of the specification, read generously: the
property is absent, or it holds `null` or the empty string. -/
def absentOrEmpty (v : Option JVal) : Bool :=
  match v with
  | none => true
  | some .null => true
  | some (.str s) => s == ""
  | _ => false

/-- C1 as the specification states it, for one event: if one of the three
required fields is absent or empty, the event is rejected and the reason lists
exactly the absent-or-empty fields. -/
def MissingAsStated (event : Obj) : Prop :=
  (∃ f ∈ required, absentOrEmpty (event.get f) = true) →
    validateEvent event = .threw ("Missing required fields: " ++
      ", ".intercalate (required.filter (fun f => absentOrEmpty (event.get f))))

/-- An event with the numeric session id `0` and no `page_url`. -/
def zeroSessionEvent : Obj :=
  [("session_id", .num 0), ("event_type", .str "click")]

/-- C6 as the specification states it, for one event: an `event_type` that is
present and not one of the eight values is rejected with the type-specific
reason, whatever the other fields are. -/
def InvalidTypeAsStated (event : Obj) : Prop :=
  event.get "event_type" ≠ none → includesType (event.get "event_type") = false →
    ∃ text, toStr (event.get "event_type") = .returned text ∧
      validateEvent event = .threw ("Invalid event type: " ++ text)

/-- An event with an unknown type and no `session_id`. -/
def bogusTypeEvent : Obj :=
  [("event_type", .str "bogus"), ("page_url", .str "/home")]

/-- A decimal digit. -/
def isDecimalDigit (c : Char) : Bool := '0' ≤ c ∧ c ≤ '9'

/-- A text that is a number and nothing else: optional white space, an optional
sign, decimal digits, optionally a point and more digits, optional white space. -/
def isNumericText (cs : List Char) : Bool :=
  let core := ((cs.dropWhile isJsWhiteSpace).reverse.dropWhile isJsWhiteSpace).reverse
  let unsigned := (stripSign core).2
  let whole := unsigned.takeWhile isDecimalDigit
  let rest := unsigned.dropWhile isDecimalDigit
  !whole.isEmpty &&
    (match rest with
     | [] => true
     | c :: more => c == '.' && more.all isDecimalDigit)

/-- The word "numeric" of the specification: a number, or a string that is a
number and nothing else. -/
def isNumeric (v : Option JVal) : Bool :=
  match v with
  | some (.num _) => true
  | some (.frac _) => true
  | some (.str s) => isNumericText s.toList
  | _ => false

/-- C4 as the specification states it, for one call: `enrichEvent` returns an
object, every numeric field of it is an integer, and it is the default whenever
the input value is absent or non-numeric. -/
def NumericDefaultsAsStated (host : Host) (fx : Effects) (event : Obj) (req : Request) : Prop :=
  ∃ out, enrichEventCall host fx event req = .returned out ∧
    ∀ p ∈ numericFields, ∃ n : Int,
      out.get p.1 = some (.num n) ∧
      (isNumeric (event.get p.1) = false → n = p.2)

/-- Whether a string, after leading white space and one optional sign, begins
with a decimal digit. -/
def startsWithDigit (s : String) : Bool :=
  match (stripSign (s.toList.dropWhile isJsWhiteSpace)).2 with
  | c :: _ => isDecimalDigit c
  | [] => false

/-- Inputs from which `parseInt` reads no integer: an absent value, `null`, a
boolean, or a string that does not begin with a digit after white space and sign. -/
def hasNoLeadingInteger (v : Option JVal) : Bool :=
  match v with
  | none => true
  | some .null => true
  | some (.bool _) => true
  | some (.str s) => !startsWithDigit s
  | _ => false

/-- What `useragent.parse` returns for a user agent that is absent or that it
does not recognise: an `Agent` and an operating system with the library's
defaults, family `Other` and version `0.0.0`. -/
def unrecognisedAgent : Agent :=
  ⟨some "Other", "0.0.0", ⟨some "Other", "0.0.0"⟩⟩

/-- A user-agent parser that recognises nothing: for an array or an object it
throws, as the library does when it scans an array for unsafe input (the message
is the engine's for that `TypeError`); for an absent user agent and for every
other value it returns `unrecognisedAgent`. -/
def parseNothing (userAgent : Option JVal) : Outcome Agent :=
  match userAgent with
  | some (.ref _ _) => .threw "userAgent.charCodeAt is not a function"
  | some (.inconvertible _) => .threw "userAgent.charCodeAt is not a function"
  | _ => .returned unrecognisedAgent

/-- A host whose geo lookup finds nothing, whose user-agent parser recognises
nothing, and whose sink accepts every batch. -/
def plainHost : Host :=
  { geoLookup := fun _ => none
    uaParse := parseNothing
    insert := fun _ => .returned ()
    development := false
    nullReadMessage := "Cannot read properties of null (reading 'session_id')"
    destructureMessage := "Cannot destructure property 'events' of 'req.body' as it is undefined." }

/-- Impure values of one call: every random draw is 5, the clock reads
`first` and then `later`. -/
def plainEffects (first later : String) : Effects :=
  { random := fun _ => 5
    clock := fun k => if k = 0 then first else later }

/-- A request with no header and no body, from the address 10.0.0.7. -/
def plainRequest : Request :=
  { headers := []
    connectionRemoteAddress := some "10.0.0.7"
    socketRemoteAddress := some "10.0.0.7"
    ip := some "10.0.0.7"
    body := none }

/-- A valid page view whose `page_load_time` is the string "12px". -/
def pixelLoadTimeEvent : Obj :=
  [("session_id", .str "s1"), ("event_type", .str "page_view"), ("page_url", .str "/"),
   ("page_load_time", .str "12px")]

/-- C5 as the specification states it, for one call during which the server
time is `t`: `server_timestamp` is `t`; `event_id` and `timestamp` are the
input's when the input has one (a value that is not absent or empty), and a
fresh identifier, respectively `t`, otherwise. -/
def IdentityAsStated (host : Host) (fx : Effects) (event : Obj) (req : Request)
    (t : String) : Prop :=
  (∀ k, fx.clock k = t) →
    (enrichEvent host fx event req).get "server_timestamp" = some (.str t) ∧
    (enrichEvent host fx event req).get "event_id" =
      (if absentOrEmpty (event.get "event_id") then some (.str (generateUUID fx.random))
       else event.get "event_id") ∧
    (enrichEvent host fx event req).get "timestamp" =
      (if absentOrEmpty (event.get "timestamp") then some (.str t)
       else event.get "timestamp")

/-- A valid click whose `event_id` is the number `0`. -/
def zeroIdEvent : Obj :=
  [("session_id", .str "s1"), ("event_type", .str "click"), ("page_url", .str "/"),
   ("event_id", .num 0)]

/-- A lowercase hexadecimal digit. -/
def isLowerHexDigit (c : Char) : Bool := ('0' ≤ c ∧ c ≤ '9') ∨ ('a' ≤ c ∧ c ≤ 'f')

/-- A parse result that names no family: `undefined` or the empty string. -/
def noFamily (family : Option String) : Prop :=
  family = none ∨ family = some ""

/-- The first comma-separated entry of a header value: the characters before
the first comma. -/
def firstCommaEntry (s : String) : String :=
  String.mk (s.toList.takeWhile (fun c => c != ','))

/-- The candidates of `getClientIP`, in priority order. -/
def ipCandidates (req : Request) : List (Option String) :=
  [(req.header "x-forwarded-for").map firstCommaEntry, req.header "x-real-ip",
   req.connectionRemoteAddress, req.socketRemoteAddress, req.ip]

/-- A candidate that loses: `undefined` or the empty string. -/
def isBlank (c : Option String) : Prop :=
  c = none ∨ c = some ""

/-- C10 as the specification states it, for two calls on the same event in the
same context: the outputs agree on every field other than `event_id` and
`server_timestamp`, and on `event_id` too when the input carries one. -/
def IdempotentAsStated (host : Host) (fx1 fx2 : Effects) (event : Obj) (req : Request) : Prop :=
  (∀ k, k ≠ "event_id" → k ≠ "server_timestamp" →
    (enrichEvent host fx1 event req).get k = (enrichEvent host fx2 event req).get k) ∧
  (absentOrEmpty (event.get "event_id") = false →
    (enrichEvent host fx1 event req).get "event_id" =
      (enrichEvent host fx2 event req).get "event_id")

/-- A valid click that carries an `event_id` and no `timestamp`. -/
def untimedEvent : Obj :=
  [("session_id", .str "s1"), ("event_type", .str "click"), ("page_url", .str "/"),
   ("event_id", .str "e-1")]

/-- What the batch loop appends to `enrichedEvents` for the item at position
`p.1`: the enriched event when both calls of the `try` complete, nothing
otherwise. -/
def acceptedAt (host : Host) (fx : Nat → Effects) (req : Request)
    (p : Nat × Option Obj) : Option Obj :=
  match processItem host (fx p.1) req p.2 with
  | .returned enrichedEvent => some enrichedEvent
  | .threw _ => none

/-- What the batch loop appends to `errors` for the item at position `p.1`:
the position with the message of the thrown error, nothing when both calls
complete. -/
def rejectedAt (host : Host) (fx : Nat → Effects) (req : Request)
    (p : Nat × Option Obj) : Option Rejection :=
  match processItem host (fx p.1) req p.2 with
  | .returned _ => none
  | .threw message => some ⟨p.1, message⟩

/-- Whether both calls of the `try` complete for an item: the validator accepts
it and its enrichment throws nothing. -/
def isAccepted (host : Host) (req : Request) (item : Option Obj) : Bool :=
  (validateItem host item matches .returned _) &&
    (enrichError host (item.getD []) req).isNone

/-- C2 as the specification states it, for one request: the rejected list holds
(i, reason) exactly for the items the validator rejects with that reason, and
the accepted list is the enrichment of all the other items in order. -/
def PartitionAsStated (host : Host) (fx : Nat → Effects) (req : Request)
    (events : List (Option Obj)) : Prop :=
  (∀ i message, (⟨i, message⟩ : Rejection) ∈ (batchLoop host fx req events 0 [] []).2 ↔
    ∃ item, events[i]? = some item ∧ validateItem host item = .threw message) ∧
  (batchLoop host fx req events 0 [] []).1 =
    (events.enum.filter (fun p => validateItem host p.2 matches .returned _)).map
      (fun p => enrichEvent host (fx p.1) (p.2.getD []) req)

/-- A valid click whose `page_load_time` is an object that cannot be converted
to a string, such as `{"toString": 1}`. -/
def stubbornEvent : Obj :=
  [("session_id", .str "s1"), ("event_type", .str "click"), ("page_url", .str "/"),
   ("page_load_time", .inconvertible "\x7b\"toString\":1\x7d")]

/-- A valid page view whose `page_load_time` is the string of 2 followed by 308
zeros, a decimal numeral beyond the range of a double. -/
def hugeLoadTimeEvent : Obj :=
  [("session_id", .str "s1"), ("event_type", .str "page_view"), ("page_url", .str "/"),
   ("page_load_time", .str (String.mk ('2' :: List.replicate 308 '0')))]

/-- A valid click that carries the `page_count` "many" and the `click_x` " -0x1F". -/
def looseNumbersEvent : Obj :=
  [("session_id", .str "s1"), ("event_type", .str "click"), ("page_url", .str "/"),
   ("page_count", .str "many"), ("click_x", .str " -0x1F")]

/-- A valid page view that carries no `user_agent`. -/
def anonymousEvent : Obj :=
  [("session_id", .str "s1"), ("event_type", .str "page_view"), ("page_url", .str "/")]

/-- A host like `plainHost` whose sink rejects every insert. -/
def downHost : Host :=
  { plainHost with insert := fun _ => .threw "connect ECONNREFUSED 127.0.0.1:8123" }

/-- A request that carries the header `x-request-id: req-42` and one valid event. -/
def tracedRequest : Request :=
  { plainRequest with
    headers := [("x-request-id", "req-42")]
    body := some [("events", .array [some
      [("session_id", .str "s1"), ("event_type", .str "click"), ("page_url", .str "/")]])] }

/-- An initialised SDK. -/
def readySdk : AnalyticsSDK :=
  { apiUrl := "http://localhost:3000/analytics/events"
    sessionId := "session_1700000000000_abc123xyz"
    userId := none
    isInitialized := true }

/-- The event `trackSession('session_start')` builds on the page `/`. -/
def sessionStartEvent : Obj :=
  [("session_id", .str "session_1700000000000_abc123xyz"), ("user_id", .null),
   ("page_url", .str "/"), ("event_type", .str "session_start"), ("duration", .num 0),
   ("page_count", .num 1), ("timestamp", .str "2024-05-01T10:00:00.000Z")]

/-- The request that carries the body `readySdk` sends for `sessionStartEvent`. -/
def sessionStartRequest : Request :=
  { plainRequest with body := readySdk.trackSession sessionStartEvent }

/-! # Theorems -/

/-! ## Claim C1: the missing-fields rejection -/

theorem missingFields_length_pos (event : Obj)
    (h : ∃ f ∈ required, truthy (event.get f) = false) :
    (missingFields event).length > 0 := by
  obtain ⟨f, hf, hfalse⟩ := h
  apply List.length_pos_of_mem (a := f)
  unfold missingFields
  rw [List.mem_filter]
  exact ⟨hf, by simp [hfalse]⟩

theorem validateEvent_of_missing (event : Obj)
    (h : (missingFields event).length > 0) :
    validateEvent event = .threw ("Missing required fields: " ++
      ", ".intercalate (missingFields event)) := by
  unfold validateEvent
  simp only [h, if_true]

theorem validateEvent_of_complete (event : Obj)
    (h : ∀ f ∈ required, truthy (event.get f) = true) :
    validateEvent event =
      if includesType (event.get "event_type") then .returned true
      else
        match toStr (event.get "event_type") with
        | .returned text => .threw ("Invalid event type: " ++ text)
        | .threw message => .threw message := by
  have hnil : missingFields event = [] := by
    unfold missingFields
    rw [List.filter_eq_nil_iff]
    intro f hf
    simp [h f hf]
  unfold validateEvent
  simp only [hnil, List.length_nil, gt_iff_lt, lt_self_iff_false, if_false]
  cases includesType (event.get "event_type") <;> simp

/-- C1 (as stated) fails: the event `zeroSessionEvent` lacks `page_url`, so the
claim predicts the reason "Missing required fields: page_url", but
`validateEvent` also names `session_id`, which is present with the value `0`. -/
theorem c1_counterexample :
    zeroSessionEvent.get "session_id" = some (.num 0) ∧
    validateEvent zeroSessionEvent = .threw "Missing required fields: session_id, page_url" ∧
    ¬ MissingAsStated zeroSessionEvent := by
  refine ⟨by decide, by decide, ?_⟩
  intro h
  have h2 := h ⟨"page_url", by decide, by decide⟩
  revert h2
  decide

/-- C1 (amended): for every raw event in which at least one of `session_id`,
`event_type`, `page_url` is absent or falsy (`null`, `false`, `0`, `''`),
`validateEvent` throws once, and the message is "Missing required fields: "
followed by the names, joined by ", " and in the order `session_id`,
`event_type`, `page_url`, of exactly the absent-or-falsy fields. -/
theorem c1_missing_fields_reason (event : Obj)
    (h : ∃ f ∈ required, truthy (event.get f) = false) :
    ∃ names : List String,
      validateEvent event = .threw ("Missing required fields: " ++ ", ".intercalate names) ∧
      names.Sublist ["session_id", "event_type", "page_url"] ∧
      ∀ f ∈ ["session_id", "event_type", "page_url"],
        (f ∈ names ↔ truthy (event.get f) = false) := by
  refine ⟨missingFields event,
    validateEvent_of_missing event (missingFields_length_pos event h), ?_, ?_⟩
  · exact List.filter_sublist _
  · intro f hf
    unfold missingFields
    rw [List.mem_filter]
    constructor
    · rintro ⟨_, h2⟩
      simpa using h2
    · intro h2
      exact ⟨hf, by simp [h2]⟩

/-- Witness for C1: an event lacking only `page_url`. -/
theorem c1_missing_fields_reason_witness :
    ∃ names : List String,
      validateEvent [("session_id", .str "s1"), ("event_type", .str "click")] =
        .threw ("Missing required fields: " ++ ", ".intercalate names) ∧
      names.Sublist ["session_id", "event_type", "page_url"] ∧
      ∀ f ∈ ["session_id", "event_type", "page_url"],
        (f ∈ names ↔
          truthy (Obj.get [("session_id", .str "s1"), ("event_type", .str "click")] f) = false) :=
  c1_missing_fields_reason [("session_id", .str "s1"), ("event_type", .str "click")]
    ⟨"page_url", by decide, by decide⟩

/-! ## Conversion to a string -/

theorem toStr_threw_iff (v : Option JVal) (message : String) :
    toStr v = .threw message ↔ (cannotConvert v = true ∧ message = conversionMessage) := by
  cases v with
  | none => simp [toStr, cannotConvert]
  | some val =>
    cases val with
    | bool b => cases b <;> simp [toStr, cannotConvert]
    | inconvertible json =>
      simp only [toStr, Outcome.threw.injEq, cannotConvert, true_and]
      exact eq_comm
    | _ => simp [toStr, cannotConvert]

/-! ## Claim C6: the invalid-type rejection -/

theorem invalid_ne_missing (a b : String) :
    "Invalid event type: " ++ a ≠ "Missing required fields: " ++ b := by
  intro h
  have h2 := congrArg (fun s : String => s.data.head?) h
  simp [String.data_append] at h2

theorem conversionMessage_ne_missing (b : String) :
    conversionMessage ≠ "Missing required fields: " ++ b := by
  intro h
  have h2 := congrArg (fun s : String => s.data.head?) h
  simp [String.data_append, conversionMessage] at h2

/-- C6 (as stated) fails: `bogusTypeEvent` has the type "bogus", which is present
and not among the eight values, but it lacks `session_id`, and `validateEvent`
throws the missing-fields reason, not "Invalid event type: bogus". -/
theorem c6_counterexample :
    validateEvent bogusTypeEvent = .threw "Missing required fields: session_id" ∧
    ¬ InvalidTypeAsStated bogusTypeEvent := by
  refine ⟨by decide, ?_⟩
  intro h
  obtain ⟨text, -, hv⟩ := h (by decide) (by decide)
  have hm : validateEvent bogusTypeEvent =
      .threw ("Missing required fields: " ++ "session_id") := by decide
  rw [hm] at hv
  injection hv with hv
  exact invalid_ne_missing _ _ hv.symm

/-- C6 (amended): for every raw event whose `session_id`, `event_type` and
`page_url` are all present and truthy and whose `event_type` is not one of the
eight values, `validateEvent` throws: "Invalid event type: " followed by the
string form of `event_type` when `event_type` converts to a string (for a
string, the string itself), and the engine's `TypeError` message when the
conversion throws (an object such as `{"toString": 1}`); neither reason is a
missing-fields reason.  For every raw event in which a required field is absent
or falsy, `validateEvent` throws the missing-fields reason instead, whatever
`event_type` is. -/
theorem c6_invalid_type_reason (event : Obj) :
    ((∀ f ∈ ["session_id", "event_type", "page_url"], truthy (event.get f) = true) →
      (∀ s ∈ ["page_view", "click", "scroll", "session_start", "session_end",
        "page_exit", "custom", "session_update"], event.get "event_type" ≠ some (.str s)) →
      (∀ text, toStr (event.get "event_type") = .returned text →
        validateEvent event = .threw ("Invalid event type: " ++ text)) ∧
      (∀ s, event.get "event_type" = some (.str s) →
        validateEvent event = .threw ("Invalid event type: " ++ s)) ∧
      (∀ n, event.get "event_type" = some (.num n) →
        validateEvent event = .threw ("Invalid event type: " ++ toString n)) ∧
      (cannotConvert (event.get "event_type") = true →
        validateEvent event = .threw "Cannot convert object to primitive value") ∧
      (∀ names : String,
        validateEvent event ≠ .threw ("Missing required fields: " ++ names))) ∧
    ((∃ f ∈ ["session_id", "event_type", "page_url"], truthy (event.get f) = false) →
      (∃ names : List String, names ≠ [] ∧
        validateEvent event = .threw ("Missing required fields: " ++ ", ".intercalate names)) ∧
      (∀ text : String, validateEvent event ≠ .threw ("Invalid event type: " ++ text))) := by
  constructor
  · intro hall hbad
    have hinc : includesType (event.get "event_type") = false := by
      unfold includesType
      split
      · next s hs =>
        rw [Bool.eq_false_iff]
        intro hmem
        have hmem2 : s ∈ validTypes := by simpa using hmem
        exact hbad s hmem2 hs
      · rfl
    have hv := validateEvent_of_complete event hall
    rw [hinc] at hv
    simp only [Bool.false_eq_true, if_false] at hv
    have htext : ∀ text, toStr (event.get "event_type") = .returned text →
        validateEvent event = .threw ("Invalid event type: " ++ text) := by
      intro text ht
      rw [hv, ht]
    refine ⟨htext, ?_, ?_, ?_, ?_⟩
    · intro s hs
      exact htext s (by rw [hs]; rfl)
    · intro n hn
      exact htext (toString n) (by rw [hn]; rfl)
    · intro hi
      rw [hv, (toStr_threw_iff _ _).2 ⟨hi, rfl⟩]
      rfl
    · intro names hn
      rw [hv] at hn
      cases ht : toStr (event.get "event_type") with
      | returned text =>
        rw [ht] at hn
        injection hn with hn
        exact invalid_ne_missing _ _ hn
      | threw message =>
        rw [ht] at hn
        have hmsg : message = conversionMessage := ((toStr_threw_iff _ _).1 ht).2
        injection hn with hn
        rw [hmsg] at hn
        exact conversionMessage_ne_missing _ hn
  · intro hmiss
    have hlen := missingFields_length_pos event hmiss
    have hv := validateEvent_of_missing event hlen
    refine ⟨⟨missingFields event, ?_, hv⟩, ?_⟩
    · intro hnil
      rw [hnil] at hlen
      simp at hlen
    · intro text ht
      rw [hv] at ht
      injection ht with ht
      exact invalid_ne_missing _ _ ht.symm

/-- Witness for C6: a complete event whose type is the number `12`, and a
complete event whose type is an unknown string. -/
theorem c6_invalid_type_reason_witness :
    validateEvent [("session_id", .str "s1"), ("event_type", .num 12), ("page_url", .str "/")] =
      .threw "Invalid event type: 12" ∧
    validateEvent [("session_id", .str "s1"), ("event_type", .str "purchase"),
      ("page_url", .str "/")] = .threw "Invalid event type: purchase" :=
  ⟨((c6_invalid_type_reason
      [("session_id", .str "s1"), ("event_type", .num 12), ("page_url", .str "/")]).1
      (by decide) (by decide)).2.2.1 12 rfl,
   ((c6_invalid_type_reason
      [("session_id", .str "s1"), ("event_type", .str "purchase"), ("page_url", .str "/")]).1
      (by decide) (by decide)).2.1 "purchase" rfl⟩

/-! ## When `enrichEvent` throws -/

theorem parseInt_threw_message (v : Option JVal) (message : String) :
    parseInt v = .threw message ↔ (cannotConvert v = true ∧ message = conversionMessage) := by
  rw [← toStr_threw_iff]
  unfold parseInt
  cases toStr v <;> simp

theorem parseInt_threw_iff (v : Option JVal) :
    (∃ message, parseInt v = .threw message) ↔ cannotConvert v = true := by
  constructor
  · rintro ⟨message, h⟩
    exact ((parseInt_threw_message v message).1 h).1
  · intro h
    exact ⟨conversionMessage, (parseInt_threw_message v _).2 ⟨h, rfl⟩⟩

theorem firstConversionError_none_iff (event : Obj) (fields : List String) :
    firstConversionError event fields = none ↔
      ∀ f ∈ fields, cannotConvert (event.get f) = false := by
  induction fields with
  | nil => simp [firstConversionError]
  | cons field rest ih =>
    unfold firstConversionError
    cases hp : parseInt (event.get field) with
    | threw message =>
      have hi := (parseInt_threw_iff (event.get field)).1 ⟨message, hp⟩
      simp [hi]
    | returned n =>
      have hi : cannotConvert (event.get field) = false := by
        rw [Bool.eq_false_iff]
        intro hcon
        obtain ⟨message, hm⟩ := (parseInt_threw_iff (event.get field)).2 hcon
        rw [hp] at hm
        cases hm
      simp [ih, hi]

theorem enrichError_none_iff (host : Host) (event : Obj) (req : Request) :
    enrichError host event req = none ↔
      ((∃ agent, host.uaParse (effectiveUserAgent event req) = .returned agent) ∧
        ∀ p ∈ numericFields, cannotConvert (event.get p.1) = false) := by
  unfold enrichError
  cases hu : host.uaParse (effectiveUserAgent event req) with
  | threw message => simp
  | returned agent =>
    simp only [firstConversionError_none_iff, List.mem_map, forall_exists_index, and_imp,
      Outcome.returned.injEq, exists_eq', true_and]
    constructor
    · intro h p hp
      exact h p.1 p hp rfl
    · intro h f p hp hf
      rw [← hf]
      exact h p hp

theorem enrichEventCall_returned_iff (host : Host) (fx : Effects) (event : Obj)
    (req : Request) (out : Obj) :
    enrichEventCall host fx event req = .returned out ↔
      (enrichError host event req = none ∧ out = enrichEvent host fx event req) := by
  unfold enrichEventCall
  cases he : enrichError host event req with
  | none =>
    simp only [Outcome.returned.injEq, true_and]
    exact eq_comm
  | some message => simp

theorem firstConversionError_some_iff (event : Obj) (fields : List String)
    (message : String) :
    firstConversionError event fields = some message ↔
      (message = conversionMessage ∧ ∃ f ∈ fields, cannotConvert (event.get f) = true) := by
  induction fields with
  | nil => simp [firstConversionError]
  | cons field rest ih =>
    unfold firstConversionError
    cases hp : parseInt (event.get field) with
    | threw m =>
      obtain ⟨hi, hm⟩ := (parseInt_threw_message (event.get field) m).1 hp
      simp only [Option.some.injEq, List.mem_cons, exists_eq_or_imp, hi, true_or, and_true]
      rw [hm]
      exact eq_comm
    | returned n =>
      have hi : cannotConvert (event.get field) = false := by
        rw [Bool.eq_false_iff]
        intro hcon
        obtain ⟨m, hm⟩ := (parseInt_threw_iff (event.get field)).2 hcon
        rw [hp] at hm
        cases hm
      simp [ih, hi]

theorem enrichError_some_iff (host : Host) (event : Obj) (req : Request) (message : String) :
    enrichError host event req = some message ↔
      (host.uaParse (effectiveUserAgent event req) = .threw message ∨
        ((∃ agent, host.uaParse (effectiveUserAgent event req) = .returned agent) ∧
          message = "Cannot convert object to primitive value" ∧
          ∃ p ∈ numericFields, cannotConvert (event.get p.1) = true)) := by
  unfold enrichError
  cases hu : host.uaParse (effectiveUserAgent event req) with
  | threw m =>
    simp only [Option.some.injEq, Outcome.threw.injEq]
    constructor
    · intro h
      exact Or.inl h
    · rintro (h | ⟨⟨agent, h⟩, -⟩)
      · exact h
      · cases h
  | returned agent =>
    simp only [firstConversionError_some_iff, List.mem_map, conversionMessage]
    constructor
    · rintro ⟨hm, f, ⟨p, hp, hf⟩, hi⟩
      exact Or.inr ⟨⟨agent, rfl⟩, hm, p, hp, by rw [hf]; exact hi⟩
    · rintro (h | ⟨-, hm, p, hp, hi⟩)
      · cases h
      · exact ⟨hm, p.1, ⟨p, hp, rfl⟩, hi⟩

theorem enrichEventCall_eq (host : Host) (fx : Effects) (event : Obj) (req : Request) :
    (enrichError host event req = none →
      enrichEventCall host fx event req = .returned (enrichEvent host fx event req)) ∧
    (∀ message, enrichError host event req = some message →
      enrichEventCall host fx event req = .threw message) := by
  constructor
  · intro h
    simp [enrichEventCall, h]
  · intro message h
    simp [enrichEventCall, h]

/-! ## Claim C2: the batch loop partitions the request in order -/

theorem processItem_threw_iff (host : Host) (fx : Effects) (req : Request)
    (item : Option Obj) (message : String) :
    processItem host fx req item = .threw message ↔
      (validateItem host item = .threw message ∨
        ((∃ value, validateItem host item = .returned value) ∧
          enrichError host (item.getD []) req = some message)) := by
  unfold processItem
  cases hv : validateItem host item with
  | threw m =>
    simp only
    constructor
    · intro h
      injection h with h
      exact Or.inl (by rw [h])
    · rintro (h | ⟨⟨value, h⟩, -⟩)
      · injection h with h
        rw [h]
      · cases h
  | returned value =>
    simp only
    cases he : enrichError host (item.getD []) req with
    | none => simp [enrichEventCall, he]
    | some m => simp [enrichEventCall, he]

theorem processItem_returned_iff (host : Host) (fx : Effects) (req : Request)
    (item : Option Obj) (out : Obj) :
    processItem host fx req item = .returned out ↔
      (isAccepted host req item = true ∧ out = enrichEvent host fx (item.getD []) req) := by
  unfold processItem isAccepted
  cases hv : validateItem host item with
  | threw m => simp
  | returned value =>
    simp only
    cases he : enrichError host (item.getD []) req with
    | none =>
      simp only [enrichEventCall, he, Outcome.returned.injEq, Option.isNone_none, Bool.and_true,
        true_and]
      exact eq_comm
    | some m => simp [enrichEventCall, he]

theorem batchLoop_eq (host : Host) (fx : Nat → Effects) (req : Request)
    (items : List (Option Obj)) (i : Nat) (enriched : List Obj) (errors : List Rejection) :
    batchLoop host fx req items i enriched errors =
      (enriched ++ (items.enumFrom i).filterMap (acceptedAt host fx req),
       errors ++ (items.enumFrom i).filterMap (rejectedAt host fx req)) := by
  induction items generalizing i enriched errors with
  | nil => simp [batchLoop]
  | cons item rest ih =>
    rw [batchLoop]
    cases hv : processItem host (fx i) req item with
    | returned value =>
      simp only [ih, List.enumFrom_cons, List.filterMap_cons, acceptedAt, rejectedAt, hv,
        List.append_assoc, List.singleton_append]
    | threw message =>
      simp only [ih, List.enumFrom_cons, List.filterMap_cons, acceptedAt, rejectedAt, hv,
        List.append_assoc, List.singleton_append]

theorem accepted_add_rejected_length (host : Host) (fx : Nat → Effects) (req : Request)
    (items : List (Option Obj)) (i : Nat) :
    ((items.enumFrom i).filterMap (acceptedAt host fx req)).length +
      ((items.enumFrom i).filterMap (rejectedAt host fx req)).length = items.length := by
  induction items generalizing i with
  | nil => simp
  | cons item rest ih =>
    have h := ih (i + 1)
    cases hv : processItem host (fx i) req item with
    | returned value =>
      simp only [List.enumFrom_cons, List.filterMap_cons, acceptedAt, rejectedAt, hv,
        List.length_cons] at h ⊢
      omega
    | threw message =>
      simp only [List.enumFrom_cons, List.filterMap_cons, acceptedAt, rejectedAt, hv,
        List.length_cons] at h ⊢
      omega

theorem rejected_indices_ascending (host : Host) (fx : Nat → Effects) (req : Request)
    (items : List (Option Obj)) (i : Nat) :
    (((items.enumFrom i).filterMap (rejectedAt host fx req)).map
      Rejection.index).Pairwise (· < ·) ∧
    ∀ r ∈ (items.enumFrom i).filterMap (rejectedAt host fx req), i ≤ r.index := by
  induction items generalizing i with
  | nil => simp
  | cons item rest ih =>
    obtain ⟨hp, hb⟩ := ih (i + 1)
    cases hv : processItem host (fx i) req item with
    | returned value =>
      simp only [List.enumFrom_cons, List.filterMap_cons, rejectedAt, hv]
      exact ⟨hp, fun r hr => Nat.le_of_succ_le (hb r hr)⟩
    | threw message =>
      simp only [List.enumFrom_cons, List.filterMap_cons, rejectedAt, hv, List.map_cons,
        List.pairwise_cons, List.mem_map, List.mem_cons, forall_exists_index, and_imp]
      refine ⟨⟨?_, hp⟩, ?_⟩
      · intro j r hr hj
        have := hb r hr
        omega
      · intro r hr
        rcases hr with rfl | hr
        · exact Nat.le_refl _
        · exact Nat.le_of_succ_le (hb r hr)

theorem mem_rejected_iff (host : Host) (fx : Nat → Effects) (req : Request)
    (items : List (Option Obj)) (i : Nat) (message : String) :
    (⟨i, message⟩ : Rejection) ∈ (items.enum).filterMap (rejectedAt host fx req) ↔
      ∃ item, items[i]? = some item ∧ processItem host (fx i) req item = .threw message := by
  rw [List.mem_filterMap]
  constructor
  · rintro ⟨⟨j, item⟩, hmem, hrej⟩
    rw [List.mk_mem_enum_iff_getElem?] at hmem
    unfold rejectedAt at hrej
    cases hv : processItem host (fx j) req item with
    | returned value => simp [hv] at hrej
    | threw m =>
      simp only [hv, Option.some.injEq, Rejection.mk.injEq] at hrej
      obtain ⟨rfl, rfl⟩ := hrej
      exact ⟨item, hmem, hv⟩
  · rintro ⟨item, hget, hv⟩
    refine ⟨(i, item), ?_, ?_⟩
    · rw [List.mk_mem_enum_iff_getElem?]
      exact hget
    · simp [rejectedAt, hv]

theorem batchLoop_accepted (host : Host) (fx : Nat → Effects) (req : Request)
    (events : List (Option Obj)) :
    (batchLoop host fx req events 0 [] []).1 =
      (events.enum.filter (fun p => isAccepted host req p.2)).map
        (fun p => enrichEvent host (fx p.1) (p.2.getD []) req) := by
  rw [batchLoop_eq]
  simp only [List.nil_append, List.enum]
  generalize 0 = k
  induction events generalizing k with
  | nil => simp
  | cons item rest ih =>
    cases hv : processItem host (fx k) req item with
    | returned value =>
      obtain ⟨hacc, hval⟩ := (processItem_returned_iff host (fx k) req item value).1 hv
      simp [List.enumFrom_cons, List.filterMap_cons, acceptedAt, hv, ih (k + 1), hacc, hval]
    | threw m =>
      have hacc : isAccepted host req item = false := by
        cases h : isAccepted host req item with
        | false => rfl
        | true =>
          have := (processItem_returned_iff host (fx k) req item _).2 ⟨h, rfl⟩
          rw [hv] at this
          cases this
      simp [List.enumFrom_cons, List.filterMap_cons, acceptedAt, hv, ih (k + 1), hacc]

theorem batchLoop_accepted_ne_nil_iff (host : Host) (fx : Nat → Effects) (req : Request)
    (events : List (Option Obj)) :
    (batchLoop host fx req events 0 [] []).1.length ≠ 0 ↔
      ∃ item ∈ events, isAccepted host req item = true := by
  rw [batchLoop_accepted, List.length_map, Ne, List.length_eq_zero, List.filter_eq_nil_iff]
  constructor
  · intro h
    by_contra hcon
    apply h
    rintro ⟨i, item⟩ hmem
    have hitem : item ∈ events := List.snd_mem_of_mem_enum hmem
    intro hacc
    exact hcon ⟨item, hitem, hacc⟩
  · rintro ⟨item, hitem, hacc⟩ h
    obtain ⟨i, hi, hget⟩ := List.getElem_of_mem hitem
    have hmem : (i, item) ∈ events.enum := by
      rw [List.mk_mem_enum_iff_getElem?, List.getElem?_eq_getElem hi, hget]
    exact h (i, item) hmem hacc

/-- C2 (as stated) fails: the one event of the request, `stubbornEvent`, passes
`validateEvent`, but `enrichEvent` throws on it inside the same `try`, so the
loop records it in the rejected list and the accepted list stays empty. -/
theorem c2_counterexample :
    validateItem plainHost (some stubbornEvent) = .returned true ∧
    batchLoop plainHost (fun _ => plainEffects "t" "t") plainRequest [some stubbornEvent] 0 [] []
      = ([], [⟨0, "Cannot convert object to primitive value"⟩]) ∧
    ¬ PartitionAsStated plainHost (fun _ => plainEffects "t" "t") plainRequest
      [some stubbornEvent] := by
  refine ⟨by decide, by decide, ?_⟩
  intro h
  have h2 := (h.1 0 "Cannot convert object to primitive value").1 (by decide)
  obtain ⟨item, hitem, hv⟩ := h2
  simp only [List.getElem?_cons_zero, Option.some.injEq] at hitem
  rw [← hitem] at hv
  revert hv
  decide

/-- C2 (amended): for every request event list, the batch loop of POST
/analytics/events returns (1) a rejected list that holds the entry (i, reason)
exactly when, for the item at the zero-based position i, `validateEvent` throws
with that reason, or `validateEvent` returns and `enrichEvent` throws with that
reason; (2) with strictly ascending indices; (3) an accepted list that is the
enrichment of the remaining items (those for which both calls complete) in
their original order; (4) the two lengths add up to N; (5) replacing the item
at one position j changes no rejection entry of another position; (6)
`enrichEvent` throws exactly when the user-agent parser throws, with the
parser's message, or when one of the eleven numeric inputs is an object whose
conversion to a string throws, with the engine's `TypeError` message. -/
theorem c2_batch_partition (host : Host) (fx : Nat → Effects) (req : Request)
    (events : List (Option Obj)) :
    (∀ i message, (⟨i, message⟩ : Rejection) ∈ (batchLoop host fx req events 0 [] []).2 ↔
      ∃ item, events[i]? = some item ∧
        (validateItem host item = .threw message ∨
          ((∃ value, validateItem host item = .returned value) ∧
            enrichError host (item.getD []) req = some message))) ∧
    (((batchLoop host fx req events 0 [] []).2).map Rejection.index).Pairwise (· < ·) ∧
    (batchLoop host fx req events 0 [] []).1 =
      (events.enum.filter (fun p =>
          (validateItem host p.2 matches .returned _) &&
            (enrichError host (p.2.getD []) req).isNone)).map
        (fun p => enrichEvent host (fx p.1) (p.2.getD []) req) ∧
    (batchLoop host fx req events 0 [] []).1.length +
      (batchLoop host fx req events 0 [] []).2.length = events.length ∧
    (∀ j other i message, i ≠ j →
      ((⟨i, message⟩ : Rejection) ∈ (batchLoop host fx req (events.set j other) 0 [] []).2 ↔
        (⟨i, message⟩ : Rejection) ∈ (batchLoop host fx req events 0 [] []).2)) ∧
    (∀ (event : Obj) message, enrichError host event req = some message ↔
      (host.uaParse (effectiveUserAgent event req) = .threw message ∨
        ((∃ agent, host.uaParse (effectiveUserAgent event req) = .returned agent) ∧
          message = "Cannot convert object to primitive value" ∧
          ∃ p ∈ numericFields, cannotConvert (event.get p.1) = true))) := by
  have hrej : ∀ items : List (Option Obj), ∀ i message,
      (⟨i, message⟩ : Rejection) ∈ (batchLoop host fx req items 0 [] []).2 ↔
        ∃ item, items[i]? = some item ∧
          (validateItem host item = .threw message ∨
            ((∃ value, validateItem host item = .returned value) ∧
              enrichError host (item.getD []) req = some message)) := by
    intro items i message
    rw [batchLoop_eq]
    have := mem_rejected_iff host fx req items i message
    simp only [List.nil_append]
    rw [← List.enum, this]
    constructor
    · rintro ⟨item, hget, hp⟩
      exact ⟨item, hget, (processItem_threw_iff host (fx i) req item message).1 hp⟩
    · rintro ⟨item, hget, hp⟩
      exact ⟨item, hget, (processItem_threw_iff host (fx i) req item message).2 hp⟩
  refine ⟨hrej events, ?_, ?_, ?_, ?_, fun event message =>
    enrichError_some_iff host event req message⟩
  · rw [batchLoop_eq]
    simpa using (rejected_indices_ascending host fx req events 0).1
  · exact batchLoop_accepted host fx req events
  · rw [batchLoop_eq]
    simpa using accepted_add_rejected_length host fx req events 0
  · intro j other i message hij
    rw [hrej, hrej]
    rw [List.getElem?_set_ne (Ne.symm hij)]

/-! ## Claim C3: at most one sink call, made exactly for a valid non-empty batch -/

/-- What the handler does once `events` is an array of 1 to 1000 items. -/
theorem postEvents_of_array (host : Host) (fx : Nat → Effects) (req : Request)
    (body : List (String × BodyVal)) (events : List (Option Obj))
    (hb : req.body = some body) (hl : body.lookup "events" = some (.array events))
    (h1 : 1 ≤ events.length) (h2 : events.length ≤ 1000) :
    postEvents host fx req =
      if (batchLoop host fx req events 0 [] []).1.length = 0 then
        ⟨400, { ReplyBody.empty with
          error := some "No valid events to process",
          validationErrors := some (batchLoop host fx req events 0 [] []).2 }, []⟩
      else
        match host.insert (batchLoop host fx req events 0 [] []).1 with
        | .threw message =>
          failedToProcess host message [(batchLoop host fx req events 0 [] []).1]
        | .returned _ =>
          ⟨200, { ReplyBody.empty with
            success := some true,
            processed := some (batchLoop host fx req events 0 [] []).1.length,
            errors := if (batchLoop host fx req events 0 [] []).2.length > 0
              then some (batchLoop host fx req events 0 [] []).2 else none },
            [(batchLoop host fx req events 0 [] []).1]⟩ := by
  have h0 : ¬ events.length = 0 := by omega
  have h3 : ¬ events.length > 1000 := by omega
  unfold postEvents
  simp only [hb, hl, h0, h3, if_false]
  by_cases h4 : (batchLoop host fx req events 0 [] []).1.length = 0
  · simp [h4]
  · simp only [h4, if_false, callInsert]
    cases host.insert (batchLoop host fx req events 0 [] []).1 <;> rfl

theorem postEvents_inserts (host : Host) (fx : Nat → Effects) (req : Request) :
    (postEvents host fx req).inserts =
      match req.body.bind (fun body => body.lookup "events") with
      | some (.array events) =>
        if 1 ≤ events.length ∧ events.length ≤ 1000 ∧
            (batchLoop host fx req events 0 [] []).1.length ≠ 0 then
          [(batchLoop host fx req events 0 [] []).1]
        else []
      | _ => [] := by
  cases hb : req.body with
  | none => simp [postEvents, hb, failedToProcess]
  | some body =>
    cases hl : body.lookup "events" with
    | none => simp [postEvents, hb, hl]
    | some val =>
      cases val with
      | other v => simp [postEvents, hb, hl]
      | array events =>
        by_cases h0 : events.length = 0
        · simp [postEvents, hb, hl, h0]
        · by_cases h1 : events.length > 1000
          · have : ¬ events.length ≤ 1000 := by omega
            simp [postEvents, hb, hl, h0, h1, this]
          · have h2 : 1 ≤ events.length := by omega
            have h3 : events.length ≤ 1000 := by omega
            rw [postEvents_of_array host fx req body events hb hl h2 h3]
            by_cases h4 : (batchLoop host fx req events 0 [] []).1.length = 0
            · simp [hl, h4]
            · cases hi : host.insert (batchLoop host fx req events 0 [] []).1 <;>
                simp [hl, h2, h3, h4, failedToProcess]

/-- C3: for every request to POST /analytics/events, `clickhouse.insert` is
called at most once; it is called if and only if `events` is an array of 1 to
1000 items of which at least one is accepted (validation and enrichment both
complete); a call's `values` are the enrichments of all accepted items, in
request order, and the outcome of the sink on exactly these values decides the
reply (200 with their count, or 500); and no call is made for an empty array,
for more than 1000 items, or when every item fails validation. -/
theorem c3_single_sink_call (host : Host) (fx : Nat → Effects) (req : Request) :
    (postEvents host fx req).inserts.length ≤ 1 ∧
    ((postEvents host fx req).inserts.length = 1 ↔
      ∃ events, req.body.bind (fun body => body.lookup "events") = some (.array events) ∧
        1 ≤ events.length ∧ events.length ≤ 1000 ∧
        ∃ item ∈ events, (∃ value, validateItem host item = .returned value) ∧
          enrichError host (item.getD []) req = none) ∧
    (∀ events, req.body.bind (fun body => body.lookup "events") = some (.array events) →
      ∀ values ∈ (postEvents host fx req).inserts,
        values = (events.enum.filter (fun p =>
            (validateItem host p.2 matches .returned _) &&
              (enrichError host (p.2.getD []) req).isNone)).map
          (fun p => enrichEvent host (fx p.1) (p.2.getD []) req)) ∧
    (∀ events, req.body.bind (fun body => body.lookup "events") = some (.array events) →
      (events = [] ∨ 1000 < events.length ∨
        ∀ item ∈ events, ∃ message, validateItem host item = .threw message) →
      (postEvents host fx req).inserts = []) ∧
    (∀ events accepted,
      req.body.bind (fun body => body.lookup "events") = some (.array events) →
      1 ≤ events.length → events.length ≤ 1000 →
      accepted = (events.enum.filter (fun p =>
          (validateItem host p.2 matches .returned _) &&
            (enrichError host (p.2.getD []) req).isNone)).map
        (fun p => enrichEvent host (fx p.1) (p.2.getD []) req) →
      accepted ≠ [] →
      (∀ message, host.insert accepted = .threw message →
        (postEvents host fx req).status = 500 ∧
        (postEvents host fx req).body.error = some "Failed to process events") ∧
      (∀ u, host.insert accepted = .returned u →
        (postEvents host fx req).status = 200 ∧
        (postEvents host fx req).body.processed = some accepted.length)) := by
  have key := postEvents_inserts host fx req
  have hcases : ∀ events, req.body.bind (fun body => body.lookup "events") =
      some (.array events) →
      (postEvents host fx req).inserts =
        if 1 ≤ events.length ∧ events.length ≤ 1000 ∧
            (batchLoop host fx req events 0 [] []).1.length ≠ 0 then
          [(batchLoop host fx req events 0 [] []).1]
        else [] := by
    intro events he
    rw [key, he]
  have hacc : ∀ item : Option Obj, isAccepted host req item = true ↔
      ((∃ value, validateItem host item = .returned value) ∧
        enrichError host (item.getD []) req = none) := by
    intro item
    unfold isAccepted
    cases hv : validateItem host item with
    | threw m => simp
    | returned value =>
      cases he : enrichError host (item.getD []) req <;> simp
  refine ⟨?_, ?_, ?_, ?_, ?_⟩
  · rw [key]
    split
    · split <;> simp
    · simp
  · constructor
    · intro hlen
      rw [key] at hlen
      split at hlen
      · next events he =>
        split at hlen
        · next hc =>
          obtain ⟨item, hitem, hok⟩ :=
            (batchLoop_accepted_ne_nil_iff host fx req events).1 hc.2.2
          exact ⟨events, he, hc.1, hc.2.1, item, hitem, (hacc item).1 hok⟩
        · simp at hlen
      · simp at hlen
    · rintro ⟨events, he, h1, h2, item, hitem, hok⟩
      rw [hcases events he]
      have h3 := (batchLoop_accepted_ne_nil_iff host fx req events).2
        ⟨item, hitem, (hacc item).2 hok⟩
      simp [h1, h2, h3]
  · intro events he values hmem
    rw [hcases events he] at hmem
    split at hmem
    · simp only [List.mem_singleton] at hmem
      rw [hmem, batchLoop_accepted]
      rfl
    · simp at hmem
  · intro events he hbad
    rw [hcases events he]
    have hnot : ¬ (1 ≤ events.length ∧ events.length ≤ 1000 ∧
        (batchLoop host fx req events 0 [] []).1.length ≠ 0) := by
      rintro ⟨h1, h2, h3⟩
      rcases hbad with rfl | hbig | hall
      · simp at h1
      · omega
      · obtain ⟨item, hitem, hok⟩ :=
          (batchLoop_accepted_ne_nil_iff host fx req events).1 h3
        obtain ⟨⟨value, hv⟩, -⟩ := (hacc item).1 hok
        obtain ⟨message, hm⟩ := hall item hitem
        rw [hv] at hm
        cases hm
    simp only [hnot, if_false]
  · intro events accepted he h1 h2 hdef hne
    have hbl : (batchLoop host fx req events 0 [] []).1 = accepted := by
      rw [batchLoop_accepted, hdef]
      rfl
    obtain ⟨body, hb, hl⟩ : ∃ body, req.body = some body ∧
        body.lookup "events" = some (.array events) := by
      cases hb : req.body with
      | none => rw [hb] at he; cases he
      | some body =>
        rw [hb] at he
        exact ⟨body, rfl, he⟩
    have hpost := postEvents_of_array host fx req body events hb hl h1 h2
    rw [hbl] at hpost
    have hlen : ¬ accepted.length = 0 := by
      intro h
      exact hne (List.length_eq_zero.1 h)
    simp only [hlen, if_false] at hpost
    constructor
    · intro message hm
      rw [hpost, hm]
      exact ⟨rfl, rfl⟩
    · intro u hu
      rw [hpost, hu]
      exact ⟨rfl, rfl⟩

/-! ## Reading a property of the enriched event -/

theorem get_set (o : Obj) (k k2 : String) (v : JVal) :
    (o.set k v).get k2 = if k = k2 then some v else o.get k2 := by
  induction o with
  | nil => simp [Obj.set, Obj.get]
  | cons kv rest ih =>
    obtain ⟨k1, v1⟩ := kv
    simp only [Obj.set]
    by_cases h : k1 = k
    · subst h
      by_cases h2 : k1 = k2 <;> simp [Obj.get, h2]
    · by_cases h2 : k1 = k2
      · subst h2
        have : ¬ k = k1 := fun e => h e.symm
        simp [Obj.get, h, this]
      · simp [Obj.get, h, h2, ih]

theorem enrichEvent_get_numeric (host : Host) (fx : Effects) (event : Obj) (req : Request)
    (field : String) (d : Int) (hmem : (field, d) ∈ numericFields) :
    (enrichEvent host fx event req).get field =
      some (parsedOr (event.get field) d) := by
  simp only [numericFields, List.mem_cons, Prod.mk.injEq, List.mem_singleton,
    List.not_mem_nil, or_false] at hmem
  rcases hmem with h | h | h | h | h | h | h | h | h | h | h <;>
    obtain ⟨rfl, rfl⟩ := h <;>
    simp [enrichEvent, Obj.assign, enrichedFields, get_set]

/-! ## Claim C4: numeric fields are integers, with defaults -/

section NumericFields

set_option maxRecDepth 100000
set_option exponentiation.threshold 2000

theorem isRadixDigit_ten (c : Char) (h : isDecimalDigit c = false) : isRadixDigit 10 c = false := by
  unfold isDecimalDigit at h
  have h2 : ¬ ('0' ≤ c ∧ c ≤ '9') := by simpa using h
  unfold isRadixDigit digitValue
  simp only [h2, if_false]
  split_ifs <;> simp

theorem stripRadix_of_not_digit (c : Char) (rest : List Char) (h : isDecimalDigit c = false) :
    stripRadix (c :: rest) = (10, c :: rest) := by
  have hc : c ≠ '0' := by
    rintro rfl
    revert h
    decide
  unfold stripRadix
  split
  · next heq => simp at heq; exact absurd heq.1 hc
  · next heq => simp at heq; exact absurd heq.1 hc
  · rfl

theorem parseIntText_nan (s : String) (h : startsWithDigit s = false) :
    parseIntText s = .nan := by
  unfold startsWithDigit at h
  unfold parseIntText
  dsimp only
  cases hu : (stripSign (s.toList.dropWhile isJsWhiteSpace)) with
  | mk negative unsigned =>
    rw [hu] at h
    simp only at h
    cases unsigned with
    | nil => simp [stripRadix]
    | cons c rest =>
      simp only at h
      simp [stripRadix_of_not_digit c rest h, List.takeWhile, isRadixDigit_ten c h]

theorem parseInt_nan_of_hasNoLeadingInteger (v : Option JVal)
    (h : hasNoLeadingInteger v = true) : parseInt v = .returned .nan := by
  unfold hasNoLeadingInteger at h
  split at h
  · decide
  · decide
  · next b => cases b <;> decide
  · next s =>
    have hs : startsWithDigit s = false := by simpa using h
    simp [parseInt, toStr, parseIntText_nan s hs]
  · simp at h

/-- C4 (as stated) fails, in three ways.  The valid event `pixelLoadTimeEvent`
carries the non-numeric `page_load_time` "12px", and the output field is 12, not
the default 0, because `parseInt` reads the leading digits.  The valid event
`hugeLoadTimeEvent` carries a numeral beyond the range of a double, and the
output field is `Infinity`, not an integer.  The valid event `stubbornEvent`
carries an object that cannot be converted to a string, and `enrichEvent`
throws instead of returning the default. -/
theorem c4_counterexample :
    validateEvent pixelLoadTimeEvent = .returned true ∧
    isNumeric (pixelLoadTimeEvent.get "page_load_time") = false ∧
    enrichEventCall plainHost (plainEffects "t0" "t1") pixelLoadTimeEvent plainRequest =
      .returned (enrichEvent plainHost (plainEffects "t0" "t1") pixelLoadTimeEvent
        plainRequest) ∧
    (enrichEvent plainHost (plainEffects "t0" "t1") pixelLoadTimeEvent plainRequest).get
      "page_load_time" = some (.num 12) ∧
    ¬ NumericDefaultsAsStated plainHost (plainEffects "t0" "t1") pixelLoadTimeEvent
      plainRequest ∧
    validateEvent hugeLoadTimeEvent = .returned true ∧
    (enrichEvent plainHost (plainEffects "t0" "t1") hugeLoadTimeEvent plainRequest).get
      "page_load_time" = some (.frac "Infinity") ∧
    validateEvent stubbornEvent = .returned true ∧
    enrichEventCall plainHost (plainEffects "t0" "t1") stubbornEvent plainRequest =
      .threw "Cannot convert object to primitive value" := by
  refine ⟨by decide, by decide, by decide, by decide, ?_, by decide, by decide, by decide,
    by decide⟩
  rintro ⟨out, hret, hall⟩
  have hout := ((enrichEventCall_returned_iff _ _ _ _ out).1 hret).2
  obtain ⟨n, hn, hd⟩ := hall ("page_load_time", 0) (by decide)
  have h12 : (enrichEvent plainHost (plainEffects "t0" "t1") pixelLoadTimeEvent
      plainRequest).get "page_load_time" = some (.num 12) := by decide
  have hn0 : n = 0 := hd (by decide)
  rw [hout, h12, hn0] at hn
  revert hn
  decide

/-- C4 (amended): `enrichEvent` returns an object exactly when the user-agent
parser returns and none of the eleven numeric inputs is an object whose
conversion to a string throws.  In the returned object each of the eleven
numeric fields is the Number that `parseInt` reads from the input's string
form, replaced by the field's default (1 for `page_count`, 0 otherwise) when
that Number is `NaN` or 0: so it is a non-zero integer (the double nearest to
the integer read at the start of the string), or the default, or `Infinity` or
`-Infinity` when the integer read is beyond the range of a double.  In
particular it is the default when the input is absent, `null`, a boolean, or a
string that does not begin with a digit after white space and an optional
sign. -/
theorem c4_numeric_fields (host : Host) (fx : Effects) (event : Obj) (req : Request)
    (field : String) (d : Int) (hmem : (field, d) ∈ numericFields) :
    (((∃ agent, host.uaParse (effectiveUserAgent event req) = .returned agent) ∧
        ∀ p ∈ numericFields, cannotConvert (event.get p.1) = false) ↔
      ∃ out, enrichEventCall host fx event req = .returned out) ∧
    (∀ out, enrichEventCall host fx event req = .returned out →
      ∃ r : JNum, parseInt (event.get field) = .returned r ∧
        (r = .nan → out.get field = some (.num d)) ∧
        (r = .int 0 → out.get field = some (.num d)) ∧
        (∀ n : Int, n ≠ 0 → r = .int n → out.get field = some (.num n)) ∧
        (r = .infinity false → out.get field = some (.frac "Infinity")) ∧
        (r = .infinity true → out.get field = some (.frac "-Infinity")) ∧
        (hasNoLeadingInteger (event.get field) = true →
          out.get field = some (.num d))) := by
  constructor
  · rw [← enrichError_none_iff]
    constructor
    · intro h
      exact ⟨_, (enrichEventCall_returned_iff host fx event req _).2 ⟨h, rfl⟩⟩
    · rintro ⟨out, h⟩
      exact ((enrichEventCall_returned_iff host fx event req out).1 h).1
  · intro out hret
    obtain ⟨herr, hout⟩ := (enrichEventCall_returned_iff host fx event req out).1 hret
    have hconv : cannotConvert (event.get field) = false :=
      ((enrichError_none_iff host event req).1 herr).2 (field, d) hmem
    have hget := enrichEvent_get_numeric host fx event req field d hmem
    rw [← hout] at hget
    cases hp : parseInt (event.get field) with
    | threw message =>
      rw [(parseInt_threw_iff _).1 ⟨message, hp⟩] at hconv
      cases hconv
    | returned r =>
      have hval : out.get field = some (numOr r d) := by
        rw [hget]
        simp [parsedOr, hp]
      refine ⟨r, rfl, ?_, ?_, ?_, ?_, ?_, ?_⟩
      · rintro rfl
        rw [hval]
        rfl
      · rintro rfl
        rw [hval]
        rfl
      · rintro n hn rfl
        rw [hval]
        simp [numOr, hn]
      · rintro rfl
        rw [hval]
        rfl
      · rintro rfl
        rw [hval]
        rfl
      · intro hno
        have hnan := parseInt_nan_of_hasNoLeadingInteger _ hno
        rw [hp] at hnan
        injection hnan with hnan
        rw [hval, hnan]
        rfl

/-- Witness for C4: `page_count` of `looseNumbersEvent`, which carries the string
"many", and its `click_x`, which carries " -0x1F". -/
theorem c4_numeric_fields_witness :
    (enrichEvent plainHost (plainEffects "t0" "t1") looseNumbersEvent plainRequest).get
      "page_count" = some (.num 1) ∧
    (enrichEvent plainHost (plainEffects "t0" "t1") looseNumbersEvent plainRequest).get
      "click_x" = some (.num (-31)) := by
  have hcall : enrichEventCall plainHost (plainEffects "t0" "t1") looseNumbersEvent
      plainRequest = .returned
        (enrichEvent plainHost (plainEffects "t0" "t1") looseNumbersEvent plainRequest) := by
    decide
  constructor
  · obtain ⟨r, -, -, -, -, -, -, h⟩ :=
      (c4_numeric_fields plainHost (plainEffects "t0" "t1") looseNumbersEvent plainRequest
        "page_count" 1 (by decide)).2 _ hcall
    exact h (by decide)
  · obtain ⟨r, hr, -, -, h, -, -, -⟩ :=
      (c4_numeric_fields plainHost (plainEffects "t0" "t1") looseNumbersEvent plainRequest
        "click_x" 0 (by decide)).2 _ hcall
    have hr2 : parseInt (looseNumbersEvent.get "click_x") = .returned (.int (-31)) := by
      decide
    rw [hr2] at hr
    injection hr with hr
    exact h (-31) (by decide) hr.symm

end NumericFields

/-! ## Claim C5: identity fields -/

theorem orElse_eq (v : Option JVal) (d : JVal) :
    some (orElse v d) = if truthy v then v else some d := by
  cases v with
  | none => simp [orElse, truthy]
  | some w =>
    by_cases h : truthy (some w) = true <;> simp [orElse, h]

theorem enrichEvent_get_identity (host : Host) (fx : Effects) (event : Obj) (req : Request) :
    (enrichEvent host fx event req).get "server_timestamp" =
      some (.str (fx.clock (if truthy (event.get "timestamp") then 0 else 1))) ∧
    (enrichEvent host fx event req).get "event_id" =
      some (orElse (event.get "event_id") (.str (generateUUID fx.random))) ∧
    (enrichEvent host fx event req).get "timestamp" =
      some (orElse (event.get "timestamp") (.str (fx.clock 0))) := by
  refine ⟨?_, ?_, ?_⟩ <;> simp [enrichEvent, Obj.assign, enrichedFields, get_set]

/-- C5 (as stated) fails: the valid event `zeroIdEvent` has the `event_id` 0,
and the output's `event_id` is a generated identifier, not the input's. -/
theorem c5_counterexample :
    validateEvent zeroIdEvent = .returned true ∧
    zeroIdEvent.get "event_id" = some (.num 0) ∧
    (enrichEvent plainHost (plainEffects "t" "t") zeroIdEvent plainRequest).get "event_id" =
      some (.str "55555555-5555-4555-9555-555555555555") ∧
    ¬ IdentityAsStated plainHost (plainEffects "t" "t") zeroIdEvent plainRequest "t" := by
  refine ⟨by decide, by decide, by decide, ?_⟩
  intro h
  have hclock : ∀ k, (plainEffects "t" "t").clock k = "t" := by
    intro k
    simp [plainEffects]
  have h2 := (h hclock).2.1
  revert h2
  decide

/-- C5 (amended): for every event and every server time `t` (the value of each
clock reading during the call), `enrichEvent`'s output has `server_timestamp`
equal to `t` whatever the input carries; `event_id` equal to the input's
`event_id` when that is truthy (present and not `null`, `false`, `0` or `''`)
and a freshly generated identifier otherwise; and `timestamp` equal to the
input's `timestamp` when that is truthy and `t` otherwise. -/
theorem c5_identity_fields (host : Host) (fx : Effects) (event : Obj) (req : Request)
    (t : String) (hclock : ∀ k, fx.clock k = t) :
    (enrichEvent host fx event req).get "server_timestamp" = some (.str t) ∧
    (enrichEvent host fx event req).get "event_id" =
      (if truthy (event.get "event_id") then event.get "event_id"
       else some (.str (generateUUID fx.random))) ∧
    (enrichEvent host fx event req).get "timestamp" =
      (if truthy (event.get "timestamp") then event.get "timestamp"
       else some (.str t)) := by
  obtain ⟨h1, h2, h3⟩ := enrichEvent_get_identity host fx event req
  refine ⟨?_, ?_, ?_⟩
  · rw [h1, hclock]
  · rw [h2, orElse_eq]
  · rw [h3, orElse_eq, hclock]

/-- Witness for C5: an event that carries a stale `server_timestamp` and no
`event_id`, enriched while the clock reads "2024-05-01T10:00:00.000Z". -/
theorem c5_identity_fields_witness :
    (enrichEvent plainHost (plainEffects "2024-05-01T10:00:00.000Z" "2024-05-01T10:00:00.000Z")
      [("session_id", .str "s1"), ("server_timestamp", .str "1999")] plainRequest).get
      "server_timestamp" = some (.str "2024-05-01T10:00:00.000Z") :=
  (c5_identity_fields plainHost
    (plainEffects "2024-05-01T10:00:00.000Z" "2024-05-01T10:00:00.000Z")
    [("session_id", .str "s1"), ("server_timestamp", .str "1999")] plainRequest
    "2024-05-01T10:00:00.000Z" (by intro k; simp [plainEffects])).1

/-! ## Claim C7: the format of generated identifiers -/

theorem uuidDigit_x_all :
    ∀ r : Fin 16, uuidDigit 'x' r.val = [Nat.digitChar r.val] ∧
      isLowerHexDigit (Nat.digitChar r.val) = true := by
  decide

theorem uuidDigit_y_all :
    ∀ r : Fin 16, uuidDigit 'y' r.val = [Nat.digitChar ((r.val &&& 0x3) ||| 0x8)] ∧
      Nat.digitChar ((r.val &&& 0x3) ||| 0x8) ∈ ['8', '9', 'a', 'b'] ∧
      isLowerHexDigit (Nat.digitChar ((r.val &&& 0x3) ||| 0x8)) = true := by
  decide

theorem uuidDigit_x (r : Fin 16) :
    ∃ c, uuidDigit 'x' r.val = [c] ∧ isLowerHexDigit c = true :=
  ⟨_, uuidDigit_x_all r⟩

theorem uuidDigit_y (r : Fin 16) :
    ∃ c, uuidDigit 'y' r.val = [c] ∧ c ∈ ['8', '9', 'a', 'b'] ∧ isLowerHexDigit c = true :=
  ⟨_, uuidDigit_y_all r⟩

theorem uuidTemplate_toList : uuidTemplate.toList =
    ['x','x','x','x','x','x','x','x','-','x','x','x','x','-','4','x','x','x','-',
     'y','x','x','x','-','x','x','x','x','x','x','x','x','x','x','x','x'] := by
  decide

/-- C7: for every sequence of values of the random source, `generateUUID`
returns a string of exactly 36 characters: five groups of lowercase hexadecimal
digits of lengths 8, 4, 4, 4 and 12 separated by '-', where the third group
begins with '4' and the fourth group begins with '8', '9', 'a' or 'b'. -/
theorem c7_uuid_format (random : Nat → Fin 16) :
    (generateUUID random).length = 36 ∧
    ∃ g1 g2 g3 g4 g5 : List Char,
      (generateUUID random).toList =
        g1 ++ '-' :: (g2 ++ '-' :: (g3 ++ '-' :: (g4 ++ '-' :: g5))) ∧
      g1.length = 8 ∧ g2.length = 4 ∧ g3.length = 4 ∧ g4.length = 4 ∧ g5.length = 12 ∧
      (∀ c ∈ g1 ++ g2 ++ g3 ++ g4 ++ g5, isLowerHexDigit c = true) ∧
      g3.head? = some '4' ∧
      ∃ c, g4.head? = some c ∧ c ∈ ['8', '9', 'a', 'b'] := by
  have hx := fun k => uuidDigit_x (random k)
  obtain ⟨y, hy, hy8, hyhex⟩ := uuidDigit_y (random 15)
  choose d hd hhex using hx
  have hlist : (generateUUID random).toList =
      [d 0, d 1, d 2, d 3, d 4, d 5, d 6, d 7, '-', d 8, d 9, d 10, d 11, '-',
       '4', d 12, d 13, d 14, '-', y, d 16, d 17, d 18, '-',
       d 19, d 20, d 21, d 22, d 23, d 24, d 25, d 26, d 27, d 28, d 29, d 30] := by
    unfold generateUUID
    rw [uuidTemplate_toList]
    simp [replaceXY, hd, hy]
  refine ⟨?_, [d 0, d 1, d 2, d 3, d 4, d 5, d 6, d 7], [d 8, d 9, d 10, d 11],
    ['4', d 12, d 13, d 14], [y, d 16, d 17, d 18],
    [d 19, d 20, d 21, d 22, d 23, d 24, d 25, d 26, d 27, d 28, d 29, d 30],
    ?_, rfl, rfl, rfl, rfl, rfl, ?_, rfl, y, rfl, hy8⟩
  · have hlen : (generateUUID random).length = (generateUUID random).toList.length := rfl
    rw [hlen, hlist]
    rfl
  · rw [hlist]
    rfl
  · intro c hc
    simp only [List.cons_append, List.nil_append, List.mem_cons, List.not_mem_nil,
      or_false, List.append_assoc] at hc
    rcases hc with rfl | rfl | rfl | rfl | rfl | rfl | rfl | rfl | rfl | rfl | rfl | rfl |
      rfl | rfl | rfl | rfl | rfl | rfl | rfl | rfl | rfl | rfl | rfl | rfl | rfl | rfl |
      rfl | rfl | rfl | rfl | rfl | rfl
    all_goals first | exact hhex _ | exact hyhex | decide

/-! ## Claim C8: browser and OS fields -/

theorem enrichEvent_get_client (host : Host) (fx : Effects) (event : Obj) (req : Request) :
    (enrichEvent host fx event req).get "browser" =
      some (orElse (orOpt ((parsedAgent host event req).family.map JVal.str)
        (event.get "browser")) (.str "Unknown")) ∧
    (enrichEvent host fx event req).get "os" =
      some (orElse (orOpt ((parsedAgent host event req).os.family.map JVal.str)
        (event.get "os")) (.str "Unknown")) ∧
    (enrichEvent host fx event req).get "browser_version" =
      some (strOr (some (parsedAgent host event req).version) "") ∧
    (enrichEvent host fx event req).get "os_version" =
      some (strOr (some (parsedAgent host event req).os.version) "") := by
  refine ⟨?_, ?_, ?_, ?_⟩ <;> simp [enrichEvent, Obj.assign, enrichedFields, get_set]

theorem family_or (family : Option String) (own : Option JVal) :
    (∀ f, family = some f → f ≠ "" →
      some (orElse (orOpt (family.map JVal.str) own) (.str "Unknown")) = some (.str f)) ∧
    (noFamily family →
      some (orElse (orOpt (family.map JVal.str) own) (.str "Unknown")) =
        if truthy own then own else some (.str "Unknown")) := by
  constructor
  · rintro f rfl hf
    simp [orOpt, orElse, truthy, hf]
  · rintro (rfl | rfl)
    · simp [orOpt, truthy, orElse_eq]
    · simp [orOpt, truthy, orElse_eq]

theorem strOr_self (s : String) : strOr (some s) "" = .str s := by
  by_cases h : s = "" <;> simp [strOr, h]

/-- What `enrichEvent` writes into the four client fields, for any parser: the
parsed family when it is not empty, otherwise the event's own `browser` (`os`)
field when truthy, otherwise "Unknown"; and the parsed versions.  A parser that
always names a family, as `useragent` does, never reaches the two fallbacks. -/
theorem enrichEvent_client_fields (host : Host) (fx : Effects) (event : Obj) (req : Request)
    (agent : Agent) (hparse : host.uaParse (effectiveUserAgent event req) = .returned agent) :
    (∀ f, agent.family = some f → f ≠ "" →
      (enrichEvent host fx event req).get "browser" = some (.str f)) ∧
    (noFamily agent.family →
      (enrichEvent host fx event req).get "browser" =
        if truthy (event.get "browser") then event.get "browser" else some (.str "Unknown")) ∧
    (∀ f, agent.os.family = some f → f ≠ "" →
      (enrichEvent host fx event req).get "os" = some (.str f)) ∧
    (noFamily agent.os.family →
      (enrichEvent host fx event req).get "os" =
        if truthy (event.get "os") then event.get "os" else some (.str "Unknown")) ∧
    (enrichEvent host fx event req).get "browser_version" = some (.str agent.version) ∧
    (enrichEvent host fx event req).get "os_version" = some (.str agent.os.version) := by
  have hagent : parsedAgent host event req = agent := by
    simp [parsedAgent, hparse]
  obtain ⟨hb, ho, hbv, hov⟩ := enrichEvent_get_client host fx event req
  rw [hagent] at hb ho hbv hov
  refine ⟨?_, ?_, ?_, ?_, ?_, ?_⟩
  · intro f hf hne
    rw [hb]
    exact (family_or _ _).1 f hf hne
  · intro hno
    rw [hb]
    exact (family_or _ _).2 hno
  · intro f hf hne
    rw [ho]
    exact (family_or _ _).1 f hf hne
  · intro hno
    rw [ho]
    exact (family_or _ _).2 hno
  · rw [hbv, strOr_self]
  · rw [hov, strOr_self]

/-- C8 at the failing input: the valid event `anonymousEvent` carries no
`user_agent` and the request no `user-agent` header, so the parser is given
`undefined` and names no browser, no operating system and no version, which
`useragent` reports as family `Other` and version `0.0.0`.  `enrichEvent`
returns these: `browser` and `os` are "Other" and the two versions "0.0.0",
not "Unknown" and the empty string. -/
theorem c8_unrecognised_agent_reports_other :
    validateEvent anonymousEvent = .returned true ∧
    effectiveUserAgent anonymousEvent plainRequest = none ∧
    plainHost.uaParse none = .returned unrecognisedAgent ∧
    enrichEventCall plainHost (plainEffects "t" "t") anonymousEvent plainRequest =
      .returned (enrichEvent plainHost (plainEffects "t" "t") anonymousEvent plainRequest) ∧
    (enrichEvent plainHost (plainEffects "t" "t") anonymousEvent plainRequest).get "browser" =
      some (.str "Other") ∧
    (enrichEvent plainHost (plainEffects "t" "t") anonymousEvent plainRequest).get
      "browser_version" = some (.str "0.0.0") ∧
    (enrichEvent plainHost (plainEffects "t" "t") anonymousEvent plainRequest).get "os" =
      some (.str "Other") ∧
    (enrichEvent plainHost (plainEffects "t" "t") anonymousEvent plainRequest).get
      "os_version" = some (.str "0.0.0") := by
  decide

/-! ## Claim C9: the priority order of getClientIP -/

theorem splitChars_head (sep : Char) (cs : List Char) :
    (splitChars sep cs).head? = some (cs.takeWhile (fun c => c != sep)) := by
  induction cs with
  | nil => rfl
  | cons c rest ih =>
    unfold splitChars
    by_cases h : c = sep
    · simp [h]
    · have hne : (c != sep) = true := by simpa using h
      simp only [h, if_false]
      cases hs : splitChars sep rest with
      | nil => simp [hs] at ih
      | cons w ws =>
        rw [hs] at ih
        simp only [List.head?_cons, Option.some.injEq] at ih
        simp [List.takeWhile, hne, ih]

theorem jsSplit_head (s : String) :
    (jsSplit s ',').head? = some (firstCommaEntry s) := by
  unfold jsSplit firstCommaEntry
  rw [List.head?_map, splitChars_head]
  rfl

theorem getClientIP_eq (req : Request) :
    getClientIP req =
      orStr (orStr (orStr (orStr ((req.header "x-forwarded-for").map firstCommaEntry)
        (req.header "x-real-ip")) req.connectionRemoteAddress) req.socketRemoteAddress)
        req.ip := by
  unfold getClientIP
  cases req.header "x-forwarded-for" with
  | none => rfl
  | some h => simp [jsSplit_head]

theorem orStr_blank (a b : Option String) (h : isBlank a) : orStr a b = b := by
  rcases h with rfl | rfl <;> simp [orStr]

theorem orStr_some (c : String) (b : Option String) (h : c ≠ "") : orStr (some c) b = some c := by
  simp [orStr, h]

/-- C9: for every request, `getClientIP` returns the first non-empty candidate
in the priority order: first comma-separated entry of `x-forwarded-for`,
`x-real-ip`, then the connection address (`req.connection.remoteAddress`,
`req.socket.remoteAddress`, `req.ip`).  In particular a non-empty first entry of
`x-forwarded-for` always wins, and an absent header or an empty first entry
falls through to `x-real-ip`, and from there to the connection address. -/
theorem c9_client_ip_priority (req : Request) :
    (∀ pre c post, ipCandidates req = pre ++ some c :: post → c ≠ "" →
      (∀ p ∈ pre, isBlank p) → getClientIP req = some c) ∧
    (∀ xff, req.header "x-forwarded-for" = some xff → firstCommaEntry xff ≠ "" →
      getClientIP req = some (firstCommaEntry xff)) ∧
    (∀ real, isBlank ((req.header "x-forwarded-for").map firstCommaEntry) →
      req.header "x-real-ip" = some real → real ≠ "" → getClientIP req = some real) ∧
    (∀ address, isBlank ((req.header "x-forwarded-for").map firstCommaEntry) →
      isBlank (req.header "x-real-ip") →
      req.connectionRemoteAddress = some address → address ≠ "" →
      getClientIP req = some address) := by
  have hgen : ∀ pre c post, ipCandidates req = pre ++ some c :: post → c ≠ "" →
      (∀ p ∈ pre, isBlank p) → getClientIP req = some c := by
    intro pre c post heq hc hblank
    rw [getClientIP_eq]
    unfold ipCandidates at heq
    rcases pre with _ | ⟨p0, _ | ⟨p1, _ | ⟨p2, _ | ⟨p3, _ | ⟨p4, pre⟩⟩⟩⟩⟩
    · simp only [List.nil_append, List.cons.injEq] at heq
      obtain ⟨h0, -⟩ := heq
      rw [h0]
      simp [orStr_some, hc]
    · simp only [List.cons_append, List.nil_append, List.cons.injEq] at heq
      obtain ⟨h0, h1, -⟩ := heq
      have b0 := hblank p0 (by simp)
      rw [h0, h1, orStr_blank _ _ b0]
      simp [orStr_some, hc]
    · simp only [List.cons_append, List.nil_append, List.cons.injEq] at heq
      obtain ⟨h0, h1, h2, -⟩ := heq
      have b0 := hblank p0 (by simp)
      have b1 := hblank p1 (by simp)
      rw [h0, h1, h2, orStr_blank _ _ b0, orStr_blank _ _ b1]
      simp [orStr_some, hc]
    · simp only [List.cons_append, List.nil_append, List.cons.injEq] at heq
      obtain ⟨h0, h1, h2, h3, -⟩ := heq
      have b0 := hblank p0 (by simp)
      have b1 := hblank p1 (by simp)
      have b2 := hblank p2 (by simp)
      rw [h0, h1, h2, h3, orStr_blank _ _ b0, orStr_blank _ _ b1, orStr_blank _ _ b2]
      simp [orStr_some, hc]
    · simp only [List.cons_append, List.nil_append, List.cons.injEq] at heq
      obtain ⟨h0, h1, h2, h3, h4, -⟩ := heq
      have b0 := hblank p0 (by simp)
      have b1 := hblank p1 (by simp)
      have b2 := hblank p2 (by simp)
      have b3 := hblank p3 (by simp)
      rw [h0, h1, h2, h3, h4, orStr_blank _ _ b0, orStr_blank _ _ b1, orStr_blank _ _ b2,
        orStr_blank _ _ b3]
    · simp at heq
  refine ⟨hgen, ?_, ?_, ?_⟩
  · intro xff hx hne
    exact hgen [] (firstCommaEntry xff)
      [req.header "x-real-ip", req.connectionRemoteAddress, req.socketRemoteAddress, req.ip]
      (by simp [ipCandidates, hx]) hne (by simp)
  · intro real hb hr hne
    refine hgen [(req.header "x-forwarded-for").map firstCommaEntry] real
      [req.connectionRemoteAddress, req.socketRemoteAddress, req.ip]
      (by simp [ipCandidates, hr]) hne ?_
    intro p hp
    simp only [List.mem_singleton] at hp
    rw [hp]
    exact hb
  · intro address hb hb2 ha hne
    refine hgen [(req.header "x-forwarded-for").map firstCommaEntry, req.header "x-real-ip"]
      address [req.socketRemoteAddress, req.ip] (by simp [ipCandidates, ha]) hne ?_
    intro p hp
    simp only [List.mem_cons, List.mem_singleton, List.not_mem_nil, or_false] at hp
    rcases hp with rfl | rfl
    · exact hb
    · exact hb2

/-! ## Claim C10: repeating the enrichment -/

theorem enrichEvent_get_stable (host : Host) (fx1 fx2 : Effects) (event : Obj) (req : Request)
    (k : String) (h1 : k ≠ "event_id") (h2 : k ≠ "timestamp") (h3 : k ≠ "server_timestamp") :
    (enrichEvent host fx1 event req).get k = (enrichEvent host fx2 event req).get k := by
  have e1 : ¬ "event_id" = k := fun e => h1 e.symm
  have e2 : ¬ "timestamp" = k := fun e => h2 e.symm
  have e3 : ¬ "server_timestamp" = k := fun e => h3 e.symm
  simp [enrichEvent, Obj.assign, enrichedFields, get_set, e1, e2, e3]

/-- C10 (as stated) fails: `untimedEvent` carries no `timestamp`; enriched at the
server times "t1" and "t2" in the same context, the two outputs differ on
`timestamp`, a field other than `event_id` and `server_timestamp`. -/
theorem c10_counterexample :
    validateEvent untimedEvent = .returned true ∧
    (enrichEvent plainHost (plainEffects "t1" "t1") untimedEvent plainRequest).get "timestamp" =
      some (.str "t1") ∧
    (enrichEvent plainHost (plainEffects "t2" "t2") untimedEvent plainRequest).get "timestamp" =
      some (.str "t2") ∧
    ¬ IdempotentAsStated plainHost (plainEffects "t1" "t1") (plainEffects "t2" "t2")
      untimedEvent plainRequest := by
  refine ⟨by decide, by decide, by decide, ?_⟩
  intro h
  have h2 := h.1 "timestamp" (by decide) (by decide)
  revert h2
  decide

/-- C10 (amended): for every event, two calls of `enrichEvent` on that event
with the same context (same request, same geo and user-agent lookups) yield
outputs that are identical on every field other than `event_id`, `timestamp`
and `server_timestamp`; they are also identical on `event_id` whenever the
input's `event_id` is truthy, and on `timestamp` whenever the input's
`timestamp` is truthy. -/
theorem c10_repeatable_fields (host : Host) (fx1 fx2 : Effects) (event : Obj) (req : Request) :
    (∀ k, k ≠ "event_id" → k ≠ "timestamp" → k ≠ "server_timestamp" →
      (enrichEvent host fx1 event req).get k = (enrichEvent host fx2 event req).get k) ∧
    (truthy (event.get "event_id") = true →
      (enrichEvent host fx1 event req).get "event_id" =
        (enrichEvent host fx2 event req).get "event_id") ∧
    (truthy (event.get "timestamp") = true →
      (enrichEvent host fx1 event req).get "timestamp" =
        (enrichEvent host fx2 event req).get "timestamp") := by
  refine ⟨fun k h1 h2 h3 => enrichEvent_get_stable host fx1 fx2 event req k h1 h2 h3, ?_, ?_⟩
  · intro ht
    rw [(enrichEvent_get_identity host fx1 event req).2.1,
      (enrichEvent_get_identity host fx2 event req).2.1, orElse_eq, orElse_eq]
    simp [ht]
  · intro ht
    rw [(enrichEvent_get_identity host fx1 event req).2.2,
      (enrichEvent_get_identity host fx2 event req).2.2, orElse_eq, orElse_eq]
    simp [ht]

/-! ## Claim C11: correlation identifiers on failure responses -/

theorem postEvents_requestId (host : Host) (fx : Nat → Effects) (req : Request) :
    (postEvents host fx req).body.requestId = none := by
  unfold postEvents
  cases req.body with
  | none => rfl
  | some body =>
    simp only
    cases body.lookup "events" with
    | none => rfl
    | some val =>
      cases val with
      | other v => rfl
      | array events =>
        simp only [callInsert]
        split
        · rfl
        · split
          · rfl
          · split
            · rfl
            · cases host.insert (batchLoop host fx req events 0 [] []).1 <;> rfl

theorem errorMiddleware_requestId (random : Nat → Fin 16) (req : Request) :
    (errorMiddleware random req).status = 500 ∧
    (∀ id, req.header "x-request-id" = some id → id ≠ "" →
      (errorMiddleware random req).body.requestId = some id) ∧
    (isBlank (req.header "x-request-id") →
      (errorMiddleware random req).body.requestId = some (generateUUID random)) := by
  refine ⟨rfl, ?_, ?_⟩
  · intro id hid hne
    simp [errorMiddleware, hid, orStr_some, hne]
  · intro hb
    simp [errorMiddleware, orStr_blank _ _ hb]

/-- C11 at the failing input: the request `tracedRequest` carries
`x-request-id: req-42` and one valid event, and the sink rejects the insert.
The handler of POST /analytics/events answers 500 "Failed to process events"
with no `requestId`, while the error-handling middleware, given the same
request, answers with `requestId` "req-42". -/
theorem c11_failed_insert_reply_lacks_request_id :
    tracedRequest.header "x-request-id" = some "req-42" ∧
    (postEvents downHost (fun _ => plainEffects "t" "t") tracedRequest).status = 500 ∧
    (postEvents downHost (fun _ => plainEffects "t" "t") tracedRequest).body.error =
      some "Failed to process events" ∧
    (postEvents downHost (fun _ => plainEffects "t" "t") tracedRequest).inserts.length = 1 ∧
    (postEvents downHost (fun _ => plainEffects "t" "t") tracedRequest).body.requestId = none ∧
    (errorMiddleware (fun _ => 5) tracedRequest).body.requestId = some "req-42" := by
  decide

/-! ## Claim C12: the SDK's request bodies against the handler -/

theorem postEvents_without_events (host : Host) (fx : Nat → Effects) (req : Request)
    (body : List (String × BodyVal)) (hbody : req.body = some body)
    (hkey : body.lookup "events" = none) :
    postEvents host fx req = eventsRequired := by
  unfold postEvents
  simp only [hbody, hkey]
  rfl

/-- C12: for every event list and every payload key the SDK passes to
`sendEvent` (`page_views`, `clicks`, `scrolls`, `sessions`), the body an
initialised SDK builds is an object whose only key is that key, so it has no
`events` property; the handler of POST /analytics/events answers every request
with such a body with status 400 and the single key `error`, "Events array is
required and must not be empty", whatever the events, the lookups and the sink
are, and makes no sink call. -/
theorem c12_sdk_body_rejected (host : Host) (fx : Nat → Effects) (sdk : AnalyticsSDK)
    (key : String) (events : List Obj) (req : Request)
    (hkey : key ∈ sdkPayloadKeys) (hinit : sdk.isInitialized = true)
    (hbody : req.body = sdk.sendEvent key events) :
    (∃ body, sdk.sendEvent key events = some body ∧ body.map Prod.fst = [key] ∧
      body.lookup "events" = none) ∧
    (postEvents host fx req).status = 400 ∧
    (postEvents host fx req).body =
      { ReplyBody.empty with error := some "Events array is required and must not be empty" } ∧
    (postEvents host fx req).inserts = [] := by
  have hsend : sdk.sendEvent key events = some [(key, .array (events.map some))] := by
    simp [AnalyticsSDK.sendEvent, hinit]
  have hne : ("events" == key) = false := by
    simp only [sdkPayloadKeys, List.mem_cons, List.mem_singleton, List.not_mem_nil,
      or_false] at hkey
    rcases hkey with rfl | rfl | rfl | rfl <;> decide
  have hlook : List.lookup "events" [(key, BodyVal.array (events.map some))] = none := by
    simp [List.lookup, hne]
  have hreply := postEvents_without_events host fx req _ (hbody.trans hsend) hlook
  refine ⟨⟨_, hsend, rfl, hlook⟩, ?_, ?_, ?_⟩ <;> rw [hreply] <;> rfl

/-- Witness for C12: the body `trackSession` builds for a session start, sent
to a service whose lookups find nothing. -/
theorem c12_sdk_body_rejected_witness :
    (postEvents plainHost (fun _ => plainEffects "t" "t") sessionStartRequest).status = 400 ∧
    (postEvents plainHost (fun _ => plainEffects "t" "t") sessionStartRequest).inserts = [] :=
  ⟨(c12_sdk_body_rejected plainHost (fun _ => plainEffects "t" "t") readySdk "sessions"
      [sessionStartEvent] sessionStartRequest (by decide) rfl rfl).2.1,
   (c12_sdk_body_rejected plainHost (fun _ => plainEffects "t" "t") readySdk "sessions"
      [sessionStartEvent] sessionStartRequest (by decide) rfl rfl).2.2.2⟩

end Analytics
